import Mathlib

/-!
Verification development for the `sql-query-identifier` Go library.

The definitions below are a shallow embedding of the library's source:
the lexer (`ScanToken` and its scanners), the statement state machine
(`stateMachineParser.AddToken` and the `create*StatementParser`
constructors), the top-level `Parse` loop, and the public `Identify`
entry point.  Go's mutable `*State` cursor is embedded by explicit state
passing, Go `panic` as `Except.error`, Go loops as fuel-indexed
structural recursion (the fuel supplied at each entry point exceeds the
input length, which bounds every loop because the cursor advances by at
least one rune per iteration), and Go slices/maps as lists.  Character
offsets are `Int`, matching Go `int` (the in-progress statement start is
initialised to `-1` in the source).  `strings.ToUpper` is embedded as
ASCII uppercasing (`Char.toUpper`); every comparison the source makes
against the result is with an all-ASCII literal.  Go `len` on a string
is UTF-8 byte length, embedded via `String.utf8ByteSize`.
-/

namespace SQI

/-- Go `TokenType` constants (types.go). `table` is declared in the source
but never produced by the lexer. -/
inductive TokenType where
  | whitespace
  | commentInline
  | commentBlock
  | string
  | semicolon
  | keyword
  | parameter
  | table
  | unknown
deriving DecidableEq

/-- The Go string value of a `TokenType`, used where the source compares a
token type with `AcceptToken.Type` strings. -/
def tokenTypeStr : TokenType → String
  | .whitespace => "whitespace"
  | .commentInline => "comment-inline"
  | .commentBlock => "comment-block"
  | .string => "string"
  | .semicolon => ";"
  | .keyword => "keyword"
  | .parameter => "parameter"
  | .table => "table"
  | .unknown => "unknown"

/-- Go `Token` (types.go): `Start`/`End` are inclusive character offsets. -/
structure Token where
  type : TokenType
  value : String
  start : Int
  endPos : Int
deriving DecidableEq

/-- Go `State` (types.go): the lexer cursor over the `[]rune` input. -/
structure State where
  start : Int
  endPos : Int
  position : Int
  input : List Char

/-- Character constants written via code points to keep the development
free of quote-like literals. -/
def squote : Char := Char.ofNat 39

def dquote : Char := Char.ofNat 34

def backq : Char := Char.ofNat 96

def nlChar : Char := Char.ofNat 10

def crChar : Char := Char.ofNat 13

def tabChar : Char := Char.ofNat 9

/-- Go slice `l[a:b]` on a `[]rune`. -/
def goSlice (l : List Char) (a b : Int) : List Char :=
  (l.take b.toNat).drop a.toNat

/-- Indexing `l[i]` on a `[]rune`; the default is never reached because
every access in the source is guarded to be in range. -/
def charAt (l : List Char) (i : Int) : Char :=
  l.getD i.toNat ' '

/-- Go `len` of the string built from these runes: UTF-8 byte count. -/
def goLen (s : String) : Int :=
  (s.utf8ByteSize : Int)

/-- tokenizer: `read(state, skip)`. Returns `none` for the `eof` sentinel;
on `eof` the position is left unchanged, exactly as in the source. -/
def read (s : State) (skip : Int) : State × Option Char :=
  if s.position + skip ≥ (s.input.length : Int) - 1 then (s, none)
  else
    let s' := { s with position := s.position + 1 + skip }
    (s', some (charAt s.input s'.position))

/-- tokenizer: `unread(state)`. -/
def unread (s : State) : State :=
  if s.position ≤ s.start then s else { s with position := s.position - 1 }

/-- tokenizer: `peekBack(state)`. -/
def peekBack (s : State) : Option Char :=
  if s.position = 0 then none else some (charAt s.input (s.position - 1))

/-- tokenizer: `peek(state)`. -/
def peek (s : State) : Option Char :=
  if s.position ≥ (s.input.length : Int) - 1 then none
  else some (charAt s.input (s.position + 1))

/-- tokenizer: the shared reserved-keyword set (`keywords`, built in
`init`). -/
def keywords : List String :=
  ["SELECT", "INSERT", "DELETE", "UPDATE", "CREATE", "DROP", "DATABASE",
   "SCHEMA", "TABLE", "VIEW", "TRIGGER", "FUNCTION", "INDEX", "ALTER",
   "TRUNCATE", "WITH", "AS", "MATERIALIZED", "BEGIN", "DECLARE", "CASE",
   "LOOP", "IF", "REPEAT", "WHILE", "FOR", "PROCEDURE", "SHOW", "DATABASES",
   "KEYS", "TABLES", "COLUMNS", "STATUS", "BINARY", "BINLOG", "CHARACTER",
   "COLLATION", "ENGINE", "ENGINES", "ERRORS", "EVENTS", "GRANTS", "MASTER",
   "OPEN", "PLUGINS", "PRIVILEGES", "PROCESSLIST", "PROFILE", "PROFILES",
   "RELAYLOG", "REPLICAS", "SLAVE", "REPLICA", "TRIGGERS", "VARIABLES",
   "WARNINGS"]

/-- `strings.ToUpper`, restricted to ASCII case mapping; every comparison
made by the source against an uppercased value uses an ASCII literal. -/
def goUpper (s : String) : String :=
  String.mk (s.data.map Char.toUpper)

/-- tokenizer: `isKeyword(word)`. -/
def isKeyword (word : String) : Bool :=
  keywords.contains (goUpper word)

/-- tokenizer: the `individuals` map contains only `";"`. -/
def resolveIndividualTokenType (s : String) : Option TokenType :=
  if s = ";" then some TokenType.semicolon else none

/-- tokenizer: the `endTokens` map. -/
def endTokensO (c : Char) : Option Char :=
  if c = dquote then some dquote
  else if c = squote then some squote
  else if c = backq then some backq
  else if c = '[' then some ']' else none

/-- tokenizer: `isWhitespace(ch)`. -/
def isWhitespaceC (c : Char) : Bool :=
  decide (c = ' ' ∨ c = tabChar ∨ c = nlChar ∨ c = crChar)

/-- tokenizer: `isLetter(ch)`; the `ch != eof` conjunct is the `none`
case. -/
def isLetterC (c : Char) : Bool :=
  decide (('a' ≤ c ∧ c ≤ 'z') ∨ ('A' ≤ c ∧ c ≤ 'Z') ∨ c = '_')

/-- tokenizer: `isAlphaNumeric(ch)` on a possibly-`eof` rune. -/
def isAlphaNumericO : Option Char → Bool
  | none => false
  | some c => isLetterC c || decide ('0' ≤ c ∧ c ≤ '9')

/-- `unicode.IsDigit` as used on parameter candidates; the source only
meets ASCII digits in the claims considered here. -/
def isDigitC (c : Char) : Bool :=
  decide ('0' ≤ c ∧ c ≤ '9')

/-- tokenizer: `isString(ch, dialect)`. -/
def isStringC (c : Char) (dialect : String) : Bool :=
  if dialect = "mysql" then decide (c = squote ∨ c = dquote) else decide (c = squote)

/-- tokenizer: `isQuotedIdentifier(ch, dialect)`. -/
def isQuotedIdentifierC (c : Char) (dialect : String) : Bool :=
  if dialect = "mssql" then decide (c = dquote ∨ c = '[')
  else decide (c = dquote ∨ c = backq)

/-- `isQuotedIdentifier` applied to a possibly-`eof` rune (`peek`
result). -/
def isQuotedIdentifierO (c : Option Char) (dialect : String) : Bool :=
  match c with
  | none => false
  | some c => isQuotedIdentifierC c dialect

/-- A `\w` character of the dollar-quote regexes (`[0-9A-Za-z_]`). -/
def isWordC (c : Char) : Bool :=
  isLetterC c || isDigitC c

/-- The label (both dollar signs included) matched by
`^(\$[a-zA-Z0-9_]*\$)` at the head of `l`, if any; also decides
`isDollarQuotedString`'s regex `^\$\w*\$`. -/
def dollarLabelAux : List Char → List Char → Option (List Char)
  | [], _ => none
  | c :: rest, acc =>
    if c = '$' then some (acc ++ [c])
    else if isWordC c then dollarLabelAux rest (acc ++ [c])
    else none

/-- See `dollarLabelAux`; `none` when the regex does not match. -/
def dollarLabel : List Char → Option (List Char)
  | [] => none
  | c :: rest => if c = '$' then dollarLabelAux rest [c] else none

/-- tokenizer: `isDollarQuotedString(state)`. -/
def isDollarQuotedString (s : State) : Bool :=
  (dollarLabel (goSlice s.input s.start (s.input.length : Int))).isSome

/-- Go `ParamTypes` (types.go). A custom pattern (a regular expression in
the source) is embedded as its anchored prefix-matching function:
`none` means the regex does not match at the start of the remaining
input, `some m` that it matches the prefix `m` (possibly empty). -/
structure ParamTypes where
  positional : Option Bool := none
  numbered : List Char := []
  named : List Char := []
  quoted : List Char := []
  custom : List (List Char → Option (List Char)) := []

/-- tokenizer: `isCustomParam(state, paramTypes)` (`MatchString` on each
pattern). -/
def isCustomParam (s : State) (pt : ParamTypes) : Bool :=
  let remaining := goSlice s.input s.start (s.input.length : Int)
  pt.custom.any (fun f => (f remaining).isSome)

/-- tokenizer: `getCustomParam(state, paramTypes)`: the first pattern
whose match at the current position is non-empty. -/
def getCustomParam (s : State) (pt : ParamTypes) : List Char :=
  let remaining := goSlice s.input s.start (s.input.length : Int)
  match pt.custom.filterMap (fun f =>
      match f remaining with
      | some m => if m ≠ [] then some m else none
      | none => none) with
  | [] => []
  | m :: _ => m

/-- tokenizer: `isParameter(ch, state, paramTypes)`. -/
def isParameterGo (ch : Option Char) (s : State) (pt : ParamTypes) : Bool :=
  match ch with
  | none => false
  | some c =>
    let nextChar := peek s
    let prevChar := peekBack s
    if c = ':' ∧ (prevChar = some ':' ∨ nextChar = some ':') then false
    else if pt.positional = some true ∧ c = '?' then true
    else if (!pt.numbered.isEmpty) && pt.numbered.contains c &&
        (match nextChar with | some nc => isDigitC nc | none => false) then true
    else if (!pt.named.isEmpty) && pt.named.contains c then true
    else if (!pt.quoted.isEmpty) && pt.quoted.contains c then true
    else if (!pt.custom.isEmpty) && isCustomParam s pt then true
    else false

/-- tokenizer: `isCommentInline(ch, state)`; it reads ahead and unreads
on failure, so the (possibly modified) state is returned. -/
def isCommentInlineGo (ch : Option Char) (s : State) : Bool × State :=
  if ch ≠ some '-' then (false, s)
  else
    match read s 0 with
    | (s', c) => if c = some '-' then (true, s') else (false, unread s')

/-- tokenizer: `isCommentBlock(ch, state)`. -/
def isCommentBlockGo (ch : Option Char) (s : State) : Bool × State :=
  if ch ≠ some '/' then (false, s)
  else
    match read s 0 with
    | (s', c) => if c = some '*' then (true, s') else (false, unread s')

/-- Builds the token every scanner except `skipChar` returns: value
`input[start:position+1]`, end `Start + len(value) - 1` with Go's
byte-length `len`. -/
def mkTokenLen (ty : TokenType) (s : State) : Token :=
  let value := String.mk (goSlice s.input s.start (s.position + 1))
  { type := ty, value := value, start := s.start,
    endPos := s.start + goLen value - 1 }

/-- tokenizer: the scan loop of `scanWhitespace`. -/
def scanWhitespaceLoop : Nat → State → State
  | 0, s => s
  | f + 1, s =>
    match read s 0 with
    | (s', none) => s'
    | (s', some c) =>
      if isWhitespaceC c then scanWhitespaceLoop f s' else unread s'

/-- tokenizer: the scan loop of `scanCommentInline`. -/
def scanCommentInlineLoop : Nat → State → State
  | 0, s => s
  | f + 1, s =>
    match read s 0 with
    | (s', none) => s'
    | (s', some c) =>
      if c = nlChar then s' else scanCommentInlineLoop f s'

/-- tokenizer: the scan loop of `scanCommentBlock`; `prev` is `none` on
entry, matching the zero-valued `prevChar` which can never equal `*`
before the first iteration. -/
def scanCommentBlockLoop : Nat → Option Char → State → State
  | 0, _, s => s
  | f + 1, prev, s =>
    match read s 0 with
    | (s', none) => s'
    | (s', some c) =>
      if prev = some '*' ∧ c = '/' then s'
      else scanCommentBlockLoop f (some c) s'

/-- tokenizer: the scan loop of `scanString` (doubled delimiter is an
escaped quote; at `eof` the source breaks and then unreads). -/
def scanStringLoop : Nat → Char → State → State
  | 0, _, s => s
  | f + 1, endTok, s =>
    match read s 0 with
    | (s', none) => unread s'
    | (s', some c) =>
      if c = endTok then
        if peek s' = some endTok then scanStringLoop f endTok (read s' 0).1
        else s'
      else scanStringLoop f endTok s'

/-- tokenizer: the scan loop of `scanQuotedIdentifier`. -/
def scanQuotedIdentifierLoop : Nat → Char → State → State
  | 0, _, s => s
  | f + 1, endTok, s =>
    match read s 0 with
    | (s', none) => unread s'
    | (s', some c) =>
      if c = endTok then s' else scanQuotedIdentifierLoop f endTok s'

/-- tokenizer: the scan loop of `scanWord`. -/
def scanWordLoop : Nat → State → State
  | 0, s => s
  | f + 1, s =>
    match read s 0 with
    | (s', none) => s'
    | (s', some c) =>
      if isLetterC c then scanWordLoop f s' else unread s'

/-- tokenizer: the closing-delimiter search loop of
`scanDollarQuotedString`. When fewer than `label.length` runes remain
the source reads to `eof` (closed form here); when the label matches it
is consumed by `label.length` reads. -/
def scanDollarLoop : Nat → List Char → State → State
  | 0, _, s => s
  | f + 1, label, s =>
    if s.position + 1 + (label.length : Int) > (s.input.length : Int) then
      if s.position < (s.input.length : Int) - 1 then
        { s with position := (s.input.length : Int) - 1 }
      else s
    else if goSlice s.input (s.position + 1) (s.position + 1 + (label.length : Int)) = label then
      { s with position := s.position + (label.length : Int) }
    else
      match read s 0 with
      | (s', none) => s'
      | (s', some _) => scanDollarLoop f label s'

/-- tokenizer: `scanDollarQuotedString(state)`; the `nil`-match panic is
unreachable because the caller checked `isDollarQuotedString` with the
same pattern, so that arm returns the state unchanged. -/
def scanDollarQuotedString (s : State) : State :=
  match dollarLabel (goSlice s.input s.start (s.input.length : Int)) with
  | none => s
  | some label =>
    let s1 := { s with position := s.position + (label.length : Int) - 1 }
    scanDollarLoop (s.input.length + 1) label s1

/-- tokenizer: the alphanumeric-run loop of `scanParameter`'s named
branch. -/
def scanNamedLoop : Nat → State → State
  | 0, s => s
  | f + 1, s =>
    if isAlphaNumericO (peek s) then scanNamedLoop f (read s 0).1 else s

/-- tokenizer: the interior loop of `scanParameter`'s quoted branch. -/
def scanQuotedParamLoop : Nat → Char → State → State
  | 0, _, s => s
  | f + 1, endQuote, s =>
    if (isAlphaNumericO (peek s) ∨ peek s = some ' ') ∧ peek s ≠ some endQuote then
      scanQuotedParamLoop f endQuote (read s 0).1
    else s

/-- `scanParameter`'s `potentialNumberStr`: the letters-and-digits run
after the sigil. -/
def spNumberedStr (s0 : State) : List Char :=
  (s0.input.drop (s0.start + 1).toNat).takeWhile (fun r => isLetterC r || isDigitC r)

/-- `scanParameter`'s numbered-branch match: sigil in `Numbered`, next
rune a digit, and the following run nonempty and all digits. -/
def spMatched1 (s0 : State) (pt : ParamTypes) : Bool :=
  (!pt.numbered.isEmpty) && pt.numbered.contains (charAt s0.input s0.start) &&
    (match peek s0 with | some nc => isDigitC nc | none => false) &&
    (!(spNumberedStr s0).isEmpty) && (spNumberedStr s0).all isDigitC

/-- `scanParameter`'s state after the numbered branch. -/
def spS1 (s0 : State) (pt : ParamTypes) : State :=
  if spMatched1 s0 pt then
    { s0 with position := s0.position + ((spNumberedStr s0).length : Int) }
  else s0

/-- `scanParameter`'s named-branch match: sigil in `Named`, not followed
by a quoted-identifier opener. -/
def spNamedHit (s0 : State) (dialect : String) (pt : ParamTypes) : Bool :=
  (!spMatched1 s0 pt) && (!pt.named.isEmpty) &&
    pt.named.contains (charAt s0.input s0.start) &&
    (!isQuotedIdentifierO (peek s0) dialect)

/-- `scanParameter`'s state after the named branch. -/
def spS2 (s0 : State) (dialect : String) (pt : ParamTypes) : State :=
  if spNamedHit s0 dialect pt then
    scanNamedLoop ((spS1 s0 pt).input.length + 1) (spS1 s0 pt)
  else spS1 s0 pt

/-- `scanParameter`'s quoted-branch match: sigil in `Quoted` followed by
a quoted identifier. -/
def spQuotedHit (s0 : State) (dialect : String) (pt : ParamTypes) : Bool :=
  (!(spMatched1 s0 pt || spNamedHit s0 dialect pt)) && (!pt.quoted.isEmpty) &&
    pt.quoted.contains (charAt s0.input s0.start) &&
    isQuotedIdentifierO (peek s0) dialect

/-- `scanParameter`'s state after the quoted branch. -/
def spS3 (s0 : State) (dialect : String) (pt : ParamTypes) : State :=
  if spQuotedHit s0 dialect pt then
    match read (spS2 s0 dialect pt) 0 with
    | (s', none) => s'
    | (s', some qc) =>
      (read (scanQuotedParamLoop (s'.input.length + 1)
        ((endTokensO qc).getD (Char.ofNat 0)) s') 0).1
  else spS2 s0 dialect pt

/-- Whether any of the numbered, named or quoted branches matched. -/
def spMatched3 (s0 : State) (dialect : String) (pt : ParamTypes) : Bool :=
  spMatched1 s0 pt || spNamedHit s0 dialect pt || spQuotedHit s0 dialect pt

/-- `scanParameter`'s custom-branch match text. -/
def spCustomStr (s0 : State) (dialect : String) (pt : ParamTypes) : List Char :=
  if (!spMatched3 s0 dialect pt) && (!pt.custom.isEmpty) then
    getCustomParam (spS3 s0 dialect pt) pt
  else []

/-- `scanParameter`'s custom-branch match flag. -/
def spCustomHit (s0 : State) (dialect : String) (pt : ParamTypes) : Bool :=
  (!spMatched3 s0 dialect pt) && (!pt.custom.isEmpty) &&
    (!(spCustomStr s0 dialect pt).isEmpty)

/-- `scanParameter`'s state after the custom branch. -/
def spS4 (s0 : State) (dialect : String) (pt : ParamTypes) : State :=
  if spCustomHit s0 dialect pt then
    (read (spS3 s0 dialect pt) (goLen (String.mk (spCustomStr s0 dialect pt)) - 2)).1
  else spS3 s0 dialect pt

/-- tokenizer: `scanParameter(state, dialect, paramTypes)`. Returns the
final state and token; the token is the slice from `Start` to the final
position, typed `unknown` when nothing matched and the positional
fallback does not apply. -/
def scanParameter (s0 : State) (dialect : String) (pt : ParamTypes) : State × Token :=
  if (!(spMatched3 s0 dialect pt || spCustomHit s0 dialect pt)) &&
      (!(decide (pt.positional = some true) : Bool)) &&
      decide (charAt s0.input s0.start ≠ '?') then
    (spS4 s0 dialect pt, mkTokenLen TokenType.unknown (spS4 s0 dialect pt))
  else
    (spS4 s0 dialect pt, mkTokenLen TokenType.parameter (spS4 s0 dialect pt))

/-- tokenizer: `skipChar(state)`: a one-character unknown token whose end
is `state.Start`. -/
def skipChar (s : State) : Token :=
  { type := TokenType.unknown,
    value := String.mk (goSlice s.input s.start (s.position + 1)),
    start := s.start, endPos := s.start }

/-- tokenizer: `scanIndividualCharacter(state)`. -/
def scanIndividualCharacter (s : State) : Option Token :=
  let value := String.mk (goSlice s.input s.start (s.position + 1))
  match resolveIndividualTokenType value with
  | none => none
  | some ty =>
    some { type := ty, value := value, start := s.start,
           endPos := s.start + goLen value - 1 }

/-- tokenizer: `ScanToken(state, dialect, paramTypes)`: reads one rune
and dispatches, in the source's order, to the scanner of the single
token starting there. Returns the advanced state and the token. -/
def scanToken (s0 : State) (dialect : String) (pt : ParamTypes) : State × Token :=
  let fuel := s0.input.length + 1
  match read s0 0 with
  | (s, ch) =>
    if (match ch with | some c => isWhitespaceC c | none => false) then
      let s' := scanWhitespaceLoop fuel s
      (s', mkTokenLen TokenType.whitespace s')
    else
      match isCommentInlineGo ch s with
      | (true, s) =>
        let s' := scanCommentInlineLoop fuel s
        (s', mkTokenLen TokenType.commentInline s')
      | (false, s) =>
        match isCommentBlockGo ch s with
        | (true, s) =>
          let s' := scanCommentBlockLoop fuel none s
          (s', mkTokenLen TokenType.commentBlock s')
        | (false, s) =>
          if (match ch with
              | some c => isStringC c dialect && (endTokensO c).isSome
              | none => false) then
            let endTok := (ch.bind endTokensO).getD (Char.ofNat 0)
            let s' := scanStringLoop fuel endTok s
            (s', mkTokenLen TokenType.string s')
          else if isParameterGo ch s pt then
            scanParameter s dialect pt
          else if isDollarQuotedString s then
            let s' := scanDollarQuotedString s
            (s', mkTokenLen TokenType.string s')
          else if (match ch with
              | some c => isQuotedIdentifierC c dialect && (endTokensO c).isSome
              | none => false) then
            let endTok := (ch.bind endTokensO).getD (Char.ofNat 0)
            let s' := scanQuotedIdentifierLoop fuel endTok s
            (s', mkTokenLen TokenType.keyword s')
          else if (match ch with | some c => isLetterC c | none => false) then
            let s' := scanWordLoop fuel s
            let value := String.mk (goSlice s'.input s'.start (s'.position + 1))
            if ¬isKeyword value then
              (s', { type := TokenType.unknown, value := value, start := s'.start,
                     endPos := s'.start + goLen value - 1 })
            else (s', mkTokenLen TokenType.keyword s')
          else
            match scanIndividualCharacter s with
            | some t => (s, t)
            | none => (s, skipChar s)

/-- defines: `ExecutionTypes`, the statement-type → execution-type map,
as an association list in the source's order. -/
def executionTypes : List (String × String) :=
  [("SELECT", "LISTING"), ("INSERT", "MODIFICATION"), ("DELETE", "MODIFICATION"),
   ("UPDATE", "MODIFICATION"), ("TRUNCATE", "MODIFICATION"),
   ("CREATE_DATABASE", "MODIFICATION"), ("CREATE_SCHEMA", "MODIFICATION"),
   ("CREATE_TABLE", "MODIFICATION"), ("CREATE_VIEW", "MODIFICATION"),
   ("CREATE_TRIGGER", "MODIFICATION"), ("CREATE_FUNCTION", "MODIFICATION"),
   ("CREATE_INDEX", "MODIFICATION"), ("CREATE_PROCEDURE", "MODIFICATION"),
   ("SHOW_BINARY", "LISTING"), ("SHOW_BINLOG", "LISTING"), ("SHOW_CHARACTER", "LISTING"),
   ("SHOW_COLLATION", "LISTING"), ("SHOW_CREATE", "LISTING"), ("SHOW_ENGINE", "LISTING"),
   ("SHOW_ENGINES", "LISTING"), ("SHOW_ERRORS", "LISTING"), ("SHOW_EVENTS", "LISTING"),
   ("SHOW_FUNCTION", "LISTING"), ("SHOW_GRANTS", "LISTING"), ("SHOW_MASTER", "LISTING"),
   ("SHOW_OPEN", "LISTING"), ("SHOW_PLUGINS", "LISTING"), ("SHOW_PRIVILEGES", "LISTING"),
   ("SHOW_PROCEDURE", "LISTING"), ("SHOW_PROCESSLIST", "LISTING"),
   ("SHOW_PROFILE", "LISTING"), ("SHOW_PROFILES", "LISTING"), ("SHOW_RELAYLOG", "LISTING"),
   ("SHOW_REPLICAS", "LISTING"), ("SHOW_SLAVE", "LISTING"), ("SHOW_REPLICA", "LISTING"),
   ("SHOW_STATUS", "LISTING"), ("SHOW_TRIGGERS", "LISTING"), ("SHOW_VARIABLES", "LISTING"),
   ("SHOW_WARNINGS", "LISTING"), ("SHOW_DATABASES", "LISTING"), ("SHOW_KEYS", "LISTING"),
   ("SHOW_INDEX", "LISTING"), ("SHOW_TABLE", "LISTING"), ("SHOW_TABLES", "LISTING"),
   ("SHOW_COLUMNS", "LISTING"), ("DROP_DATABASE", "MODIFICATION"),
   ("DROP_SCHEMA", "MODIFICATION"), ("DROP_TABLE", "MODIFICATION"),
   ("DROP_VIEW", "MODIFICATION"), ("DROP_TRIGGER", "MODIFICATION"),
   ("DROP_FUNCTION", "MODIFICATION"), ("DROP_INDEX", "MODIFICATION"),
   ("DROP_PROCEDURE", "MODIFICATION"), ("ALTER_DATABASE", "MODIFICATION"),
   ("ALTER_SCHEMA", "MODIFICATION"), ("ALTER_TABLE", "MODIFICATION"),
   ("ALTER_VIEW", "MODIFICATION"), ("ALTER_TRIGGER", "MODIFICATION"),
   ("ALTER_FUNCTION", "MODIFICATION"), ("ALTER_INDEX", "MODIFICATION"),
   ("ALTER_PROCEDURE", "MODIFICATION"), ("UNKNOWN", "UNKNOWN"),
   ("ANON_BLOCK", "ANON_BLOCK")]

/-- Map lookup `ExecutionTypes[t]` with its `ok` flag as `Option`. -/
def executionTypeLookup (t : String) : Option String :=
  (executionTypes.find? (fun kv => kv.1 == t)).map (fun kv => kv.2)

/-- defines: `statementsWithEnds`. -/
def statementsWithEnds : List String :=
  ["CREATE_TRIGGER", "CREATE_FUNCTION", "CREATE_PROCEDURE", "ANON_BLOCK", "UNKNOWN"]

/-- defines: the `blockOpeners` map keyed by dialect; a missing key gives
the empty list, as a Go map lookup would. -/
def blockOpeners (dialect : String) : List String :=
  if dialect = "generic" then ["BEGIN", "CASE"]
  else if dialect = "psql" then ["BEGIN", "CASE", "LOOP", "IF"]
  else if dialect = "mysql" then ["BEGIN", "CASE", "LOOP", "IF"]
  else if dialect = "mssql" then ["BEGIN", "CASE"]
  else if dialect = "sqlite" then ["BEGIN", "CASE"]
  else if dialect = "oracle" then ["DECLARE", "BEGIN", "CASE"]
  else if dialect = "bigquery" then ["BEGIN", "CASE", "IF", "LOOP", "REPEAT", "WHILE", "FOR"]
  else []

/-- The regular expression `preTableKeywords` = `(?i)^from$|^join$|^into$`
as a predicate (`MatchString` on a whole token value). -/
def preTableKeyword (v : String) : Bool :=
  goUpper v == "FROM" || goUpper v == "JOIN" || goUpper v == "INTO"

/-- Go `Statement` (types.go): the in-progress mutable accumulator. -/
structure Statement where
  start : Int
  endPos : Int
  type : Option String := none
  executionType : Option String := none
  endStatement : Option String := none
  canEnd : Option Bool := none
  definer : Option Int := none
  algorithm : Option Int := none
  sqlSecurity : Option Int := none
  parameters : List String := []
  tables : List String := []
  isCte : Option Bool := none
deriving DecidableEq

/-- Go `ConcreteStatement` (types.go). -/
structure ConcreteStatement where
  start : Int
  endPos : Int
  type : String
  executionType : String
  endStatement : Option String := none
  canEnd : Option Bool := none
  definer : Option Int := none
  algorithm : Option Int := none
  sqlSecurity : Option Int := none
  parameters : List String := []
  tables : List String := []
  isCte : Option Bool := none
deriving DecidableEq

/-- `(*Statement).ToConcrete` (types.go): `Type`/`ExecutionType` default
to `UNKNOWN`. -/
def Statement.toConcrete (s : Statement) : ConcreteStatement :=
  { start := s.start, endPos := s.endPos,
    type := s.type.getD "UNKNOWN",
    executionType := s.executionType.getD "UNKNOWN",
    endStatement := s.endStatement, canEnd := s.canEnd,
    definer := s.definer, algorithm := s.algorithm, sqlSecurity := s.sqlSecurity,
    parameters := s.parameters, tables := s.tables, isCte := s.isCte }

/-- `createInitialStatement()`. -/
def createInitialStatement : Statement :=
  { start := -1, endPos := 0, parameters := [], tables := [] }

/-- Go `AcceptToken` (types.go). -/
structure AcceptToken where
  type : String
  value : String
deriving DecidableEq

/-- Go `StepValidation` (types.go). -/
structure StepValidation where
  requireBefore : List String := []
  acceptTokens : List AcceptToken
deriving DecidableEq

/-- The `Add` closure of each `Step`: each closure in the source only
sets `Type` and/or `Start` of the captured statement; this data type
records which, making the effect explicit. -/
inductive StepEffect where
  | fixType (t : String)
  | startOnly
  | typeFromWord (pre : String)
  | showWord
deriving DecidableEq

/-- The `Add` closures of the source, applied explicitly: `fixType t`
sets `Type` to `t` and `Start` (if unset) to the token start;
`startOnly` only sets `Start`; `typeFromWord pre` sets
`Type = pre + ToUpper(value)`; `showWord` additionally replaces spaces
with underscores (`createShowStatementParser`). -/
def applyStepEffect : StepEffect → Statement → Token → Statement
  | .fixType t, st, tok =>
    let st := { st with type := some t }
    if st.start < 0 then { st with start := tok.start } else st
  | .startOnly, st, tok =>
    if st.start < 0 then { st with start := tok.start } else st
  | .typeFromWord pre, st, tok =>
    { st with type := some (pre ++ goUpper tok.value) }
  | .showWord, st, tok =>
    { st with type := some ("SHOW_" ++
        goUpper (String.mk (tok.value.data.map (fun c => if c = ' ' then '_' else c)))) }

/-- Go `Step` (types.go); `PreCanGoToNext`/`PostCanGoToNext` are kept as
functions (they are `fun _ => false` / `fun _ => true` in every parser
the source builds). -/
structure Step where
  preCanGoToNext : Token → Bool
  validation : Option StepValidation := none
  effect : StepEffect
  postCanGoToNext : Token → Bool

/-- Go `ParseOptions`. -/
structure ParseOptions where
  isStrict : Bool
  dialect : String
  identifyTables : Bool
  paramTypes : ParamTypes

/-- Go `stateMachineParser`. -/
structure SMParser where
  statement : Statement
  steps : List Step
  options : ParseOptions
  currentStepIndex : Nat := 0
  prevToken : Option Token := none
  prevNonWhitespaceToken : Option Token := none
  lastBlockOpener : Option Token := none
  anonBlockStarted : Bool := false
  openBlocks : Int := 0

/-- `(*stateMachineParser).setPrevToken`. -/
def setPrevToken (p : SMParser) (t : Token) : SMParser :=
  let p := { p with prevToken := some t }
  if t.type ≠ TokenType.whitespace then { p with prevNonWhitespaceToken := some t } else p

/-- `(*stateMachineParser).isValidToken`. -/
def isValidToken (step : Step) (token : Token) : Bool :=
  match step.validation with
  | none => true
  | some v =>
    v.acceptTokens.any (fun accept =>
      (tokenTypeStr token.type == accept.type) &&
      (accept.value == "" || goUpper token.value == accept.value))

/-- Whether the previous non-whitespace token's uppercased value is `w`. -/
def prevNonWsValueIs (p : SMParser) (w : String) : Bool :=
  match p.prevNonWhitespaceToken with
  | some t => goUpper t.value == w
  | none => false

/-- `p.lastBlockOpener != nil && p.lastBlockOpener.Value == "DECLARE"`
(a case-sensitive comparison in the source). -/
def lastBlockOpenerIsDeclare (p : SMParser) : Bool :=
  match p.lastBlockOpener with
  | some t => t.value == "DECLARE"
  | none => false

/-- `p.prevToken != nil && p.prevToken.Type == ty`. -/
def prevTokenTypeIs (p : SMParser) (ty : TokenType) : Bool :=
  match p.prevToken with
  | some t => t.type == ty
  | none => false

/-- `p.prevToken != nil && p.prevToken.Type != TokenWhitespace`. -/
def prevTokenNotWhitespace (p : SMParser) : Bool :=
  match p.prevToken with
  | some t => !(t.type == TokenType.whitespace)
  | none => false

/-- `p.prevToken != nil` and its uppercased value is in `ws`. -/
def prevTokenUpperIn (p : SMParser) (ws : List String) : Bool :=
  match p.prevToken with
  | some t => ws.contains (goUpper t.value)
  | none => false

/-- `p.statement.Definer != nil && *p.statement.Definer > 0`. -/
def definerPos (p : SMParser) : Bool :=
  match p.statement.definer with
  | some d => decide (0 < d)
  | none => false

/-- `p.statement.Definer != nil && *p.statement.Definer > 1`. -/
def definerGt1 (p : SMParser) : Bool :=
  match p.statement.definer with
  | some d => decide (1 < d)
  | none => false

/-- `p.statement.Algorithm != nil && *p.statement.Algorithm > 0`. -/
def algorithmPos (p : SMParser) : Bool :=
  match p.statement.algorithm with
  | some a => decide (0 < a)
  | none => false

/-- `p.statement.Algorithm != nil && *p.statement.Algorithm > 1`. -/
def algorithmGt1 (p : SMParser) : Bool :=
  match p.statement.algorithm with
  | some a => decide (1 < a)
  | none => false

/-- `AddToken`, block-open phase (the `token.Type == TokenKeyword` block
handling `blockOpeners`): returns the updated parser and whether the
source `return`s there. -/
def addTokenBlockOpen (p : SMParser) (token nextToken : Token) : SMParser × Bool :=
  if token.type = TokenType.keyword then
    let upperVal := goUpper token.value
    let isBlockOpener := (blockOpeners p.options.dialect).contains upperVal
    if isBlockOpener && (!prevNonWsValueIs p "END") then
      let canOpenBlock : Bool :=
        if upperVal ≠ "BEGIN" then true
        else if goUpper nextToken.value ≠ "TRANSACTION" then
          if p.options.dialect ≠ "sqlite" then true
          else if ¬(goUpper nextToken.value = "DEFERRED" ∨ goUpper nextToken.value = "IMMEDIATE"
              ∨ goUpper nextToken.value = "EXCLUSIVE") then true
          else false
        else false
      if canOpenBlock then
        if p.options.dialect = "oracle" ∧ lastBlockOpenerIsDeclare p ∧ upperVal = "BEGIN" then
          ({ setPrevToken p token with lastBlockOpener := some token }, true)
        else
          let p := { p with openBlocks := p.openBlocks + 1, lastBlockOpener := some token }
          let p := setPrevToken p token
          if p.statement.type = some "ANON_BLOCK" ∧ ¬p.anonBlockStarted then
            ({ p with anonBlockStarted := true }, false)
          else if p.statement.type.isSome then (p, true)
          else (p, false)
      else (p, false)
    else (p, false)
  else (p, false)

/-- `AddToken`, table-capture phase (only `FROM`/`JOIN`/`INTO` outside a
CTE, for `SELECT`/`INSERT`, deduplicated). -/
def addTokenTables (p : SMParser) (token nextToken : Token) : SMParser :=
  if p.options.identifyTables ∧ preTableKeyword token.value ∧
      (p.statement.isCte = none ∨ p.statement.isCte = some false) then
    if p.statement.type = some "SELECT" ∨ p.statement.type = some "INSERT" then
      let tableValue := nextToken.value
      if p.statement.tables.contains tableValue then p
      else { p with statement := { p.statement with tables := p.statement.tables ++ [tableValue] } }
    else p
  else p

/-- `AddToken`, parameter-capture phase: `?` always appended, any other
parameter value deduplicated. -/
def addTokenParams (p : SMParser) (token : Token) : SMParser :=
  if token.type = TokenType.parameter ∧
      (token.value = "?" ∨ ¬p.statement.parameters.contains token.value) then
    { p with statement := { p.statement with parameters := p.statement.parameters ++ [token.value] } }
  else p

/-- The step-validation error message of `AddToken`. -/
def invalidTokenMsg (step : Step) (token : Token) (idx : Nat) : String :=
  let expected :=
    match step.validation with
    | some v => v.acceptTokens.map (fun a =>
        "(type=\"" ++ a.type ++ "\" value=\"" ++ a.value ++ "\")")
    | none => []
  "Expected any of these tokens " ++ String.intercalate " or " expected ++
    " instead of type=\"" ++ tokenTypeStr token.type ++ "\" value=\"" ++ token.value ++
    "\" (currentStep=" ++ toString idx ++ ")."

/-- The `RequireBefore` check of `AddToken`'s step logic:
`p.prevToken != nil && currentStep.Validation != nil &&
len(RequireBefore) > 0 && !contains(RequireBefore, prevToken.Type)`. -/
def stepRequireBeforeFails (p : SMParser) (currentStep : Step) : Bool :=
  match p.prevToken, currentStep.validation with
  | some pt, some v =>
    (!v.requireBefore.isEmpty) && (!v.requireBefore.contains (tokenTypeStr pt.type))
  | _, _ => false

/-- The `RequireBefore` panic message (built only when the check fails,
in which case the validation is present). -/
def requireBeforeMsg (p : SMParser) (currentStep : Step) (token : Token) : String :=
  match currentStep.validation with
  | some v =>
    "Expected any of these tokens " ++ String.intercalate " or " v.requireBefore ++
      " before \"" ++ token.value ++ "\" (currentStep=" ++ toString p.currentStepIndex ++ ")."
  | none => ""

/-- The execution-type recompute at the end of a successful step:
`ExecutionTypes[*p.statement.Type]` with `UNKNOWN` for a missing key or
an unset type. -/
def recomputeExecutionType (st : Statement) : Statement :=
  match st.type with
  | some t =>
    match executionTypeLookup t with
    | some e => { st with executionType := some e }
    | none => { st with executionType := some "UNKNOWN" }
  | none => { st with executionType := some "UNKNOWN" }

/-- `AddToken`, step logic on a fixed current step: `RequireBefore`
check (a panic regardless of strictness), `isValidToken` (a panic only
in strict mode), the step's `Add` effect, the execution-type recompute,
and the `PostCanGoToNext` advance. -/
def addTokenStepsCore (p : SMParser) (currentStep : Step) (token : Token) : Except String SMParser :=
  if stepRequireBeforeFails p currentStep then
    .error (requireBeforeMsg p currentStep token)
  else if ¬isValidToken currentStep token ∧ p.options.isStrict then
    .error (invalidTokenMsg currentStep token p.currentStepIndex)
  else
    let st := recomputeExecutionType (applyStepEffect currentStep.effect p.statement token)
    let p := { p with statement := st }
    let p :=
      if currentStep.postCanGoToNext token then
        { p with currentStepIndex := p.currentStepIndex + 1 }
      else p
    .ok (setPrevToken p token)

/-- `AddToken`, step logic: fetches the current step (a Go runtime panic
if the index is out of range, embedded as an error), applies the
`PreCanGoToNext` advance, then `addTokenStepsCore`. -/
def addTokenSteps (p : SMParser) (token : Token) : Except String SMParser :=
  match p.steps.get? p.currentStepIndex with
  | none => .error "runtime error: index out of range"
  | some step0 =>
    if step0.preCanGoToNext token then
      match p.steps.get? (p.currentStepIndex + 1) with
      | none => .error "runtime error: index out of range"
      | some step1 => addTokenStepsCore { p with currentStepIndex := p.currentStepIndex + 1 } step1 token
    else addTokenStepsCore p step0 token

/-- `AddToken`, the `SQL SECURITY` counter block (a flattened
transcription of the source's counter `if`s: advance-and-return branches
first, otherwise clear the counter exactly when the source's `* == 2`
guard holds and fall through to step logic). -/
def addTokenSqlSecurity (p : SMParser) (token : Token) : Except String SMParser :=
  if p.options.dialect = "mysql" ∧ goUpper token.value = "SQL" then
    .ok (setPrevToken { p with statement := { p.statement with sqlSecurity := some 0 } } token)
  else if p.statement.sqlSecurity = some 0 ∧ goUpper token.value = "SECURITY" then
    .ok (setPrevToken { p with statement := { p.statement with sqlSecurity := some 1 } } token)
  else if p.statement.sqlSecurity = some 1 ∧
      (goUpper token.value = "DEFINER" ∨ goUpper token.value = "INVOKER") then
    .ok (setPrevToken { p with statement := { p.statement with sqlSecurity := some 2 } } token)
  else
    addTokenSteps
      (if p.statement.sqlSecurity = some 2 then
        { p with statement := { p.statement with sqlSecurity := none } }
       else p) token

/-- `AddToken`, tail after the `DEFINER` counter block: the `ALGORITHM`
counter block (flattened like `addTokenSqlSecurity`; the counter is
cleared exactly when the source's `* > 0` guard holds without an
advance), then the `SQL SECURITY` block and step logic. -/
def addTokenAfterDefiner (p : SMParser) (token : Token) : Except String SMParser :=
  if p.options.dialect = "mysql" ∧ goUpper token.value = "ALGORITHM" then
    .ok (setPrevToken { p with statement := { p.statement with algorithm := some 0 } } token)
  else if p.statement.algorithm = some 0 ∧ token.value = "=" then
    .ok (setPrevToken { p with statement := { p.statement with algorithm := some 1 } } token)
  else if p.statement.algorithm = some 1 ∧ prevTokenTypeIs p TokenType.whitespace then
    .ok (setPrevToken { p with statement := { p.statement with algorithm := some 2 } } token)
  else if algorithmGt1 p ∧ prevTokenUpperIn p ["UNDEFINED", "MERGE", "TEMPTABLE"] then
    .ok (setPrevToken p token)
  else
    addTokenSqlSecurity
      (if algorithmPos p then
        { p with statement := { p.statement with algorithm := none } }
       else p) token

/-- `statementTypeEnds` in `AddToken`: the statement's type is set and
requires block closure. -/
def statementTypeEndsB (p : SMParser) : Bool :=
  match p.statement.type with
  | some t => statementsWithEnds.contains t
  | none => false

/-- The condition under which `AddToken` ends the statement on a
semicolon token: the statement's type does not require block closure, or
no blocks are open and the type is `UNKNOWN` or `CanEnd` was set. -/
def semiCond (p : SMParser) : Prop :=
  statementTypeEndsB p = false ∨
    (p.openBlocks = 0 ∧ (p.statement.type = some "UNKNOWN" ∨ p.statement.canEnd = some true))

instance (p : SMParser) : Decidable (semiCond p) := by
  unfold semiCond; infer_instance

/-- `AddToken`, the `DEFINER` counter block (flattened like the other
counters), then the `ALGORITHM`/`SQL SECURITY` blocks and step logic. -/
def addTokenDefiner (p : SMParser) (token : Token) : Except String SMParser :=
  if p.options.dialect = "mysql" ∧ goUpper token.value = "DEFINER" then
    .ok (setPrevToken { p with statement := { p.statement with definer := some 0 } } token)
  else if p.statement.definer = some 0 ∧ token.value = "=" then
    .ok (setPrevToken { p with statement := { p.statement with definer := some 1 } } token)
  else if p.statement.definer = some 1 ∧ prevTokenTypeIs p TokenType.whitespace then
    .ok (setPrevToken { p with statement := { p.statement with definer := some 2 } } token)
  else if definerGt1 p ∧ prevTokenNotWhitespace p then
    .ok (setPrevToken p token)
  else
    addTokenAfterDefiner
      (if definerPos p then
        { p with statement := { p.statement with definer := none } }
       else p) token

/-- `AddToken`, modifier-skipping phase (lines after the capture phases:
the pass-through for a fully started statement, then `UNIQUE`-kind,
`MATERIALIZED`, `OR REPLACE`/`OR ALTER`, `TEMP`/`TEMPORARY`/`VIRTUAL`),
then the counter blocks and step logic. -/
def addTokenModifiers (p : SMParser) (token : Token) : Except String SMParser :=
  if p.statement.type.isSome ∧ p.statement.start ≥ 0 then
    .ok (setPrevToken p token)
  else if goUpper token.value = "UNIQUE" ∨
      (p.options.dialect = "mysql" ∧
        (goUpper token.value = "FULLTEXT" ∨ goUpper token.value = "SPATIAL")) ∨
      (p.options.dialect = "mssql" ∧
        (goUpper token.value = "CLUSTERED" ∨ goUpper token.value = "NONCLUSTERED")) then
    .ok (setPrevToken p token)
  else if (p.options.dialect = "psql" ∨ p.options.dialect = "mssql" ∨
      p.options.dialect = "bigquery") ∧ goUpper token.value = "MATERIALIZED" then
    .ok (setPrevToken p token)
  else if p.options.dialect ≠ "sqlite" ∧
      (goUpper token.value = "OR" ∨
        (prevNonWsValueIs p "OR" ∧
          (if p.options.dialect = "mssql" then goUpper token.value = "ALTER"
           else goUpper token.value = "REPLACE"))) then
    .ok (setPrevToken p token)
  else if (p.options.dialect = "psql" ∧
        (goUpper token.value = "TEMP" ∨ goUpper token.value = "TEMPORARY")) ∨
      (p.options.dialect = "sqlite" ∧
        (goUpper token.value = "TEMP" ∨ goUpper token.value = "TEMPORARY" ∨
          goUpper token.value = "VIRTUAL")) then
    .ok (setPrevToken p token)
  else
    addTokenDefiner p token

/-- `(*stateMachineParser).AddToken(token, nextToken)`: Go `panic`s are
`Except.error`s. -/
def addToken (p : SMParser) (token nextToken : Token) : Except String SMParser :=
  if p.statement.endStatement.isSome then
    .error "This statement has already got to the end."
  else if token.type = TokenType.semicolon ∧ semiCond p then
    .ok { p with statement := { p.statement with endStatement := some ";" } }
  else if p.openBlocks > 0 ∧ goUpper token.value = "END" then
    .ok (setPrevToken
      { p with
        openBlocks := p.openBlocks - 1,
        statement :=
          if p.openBlocks - 1 = 0 then { p.statement with canEnd := some true }
          else p.statement } token)
  else if token.type = TokenType.whitespace then
    .ok (setPrevToken p token)
  else
    match addTokenBlockOpen p token nextToken with
    | (p, true) => .ok p
    | (p, false) => addTokenModifiers (addTokenParams (addTokenTables p token nextToken) token) token

/-- `stateMachineStatementParser(statement, steps, options)`. -/
def stateMachineStatementParser (statement : Statement) (steps : List Step)
    (options : ParseOptions) : SMParser :=
  { statement := statement, steps := steps, options := options }

/-- `createSelectStatementParser(options)`. -/
def createSelectStatementParser (options : ParseOptions) : SMParser :=
  stateMachineStatementParser createInitialStatement
    [{ preCanGoToNext := fun _ => false,
       validation := some { acceptTokens := [⟨"keyword", "SELECT"⟩] },
       effect := .fixType "SELECT",
       postCanGoToNext := fun _ => true }] options

/-- `createBlockStatementParser(options)`: `Type` is `ANON_BLOCK` from
the start; Oracle also accepts `DECLARE`. -/
def createBlockStatementParser (options : ParseOptions) : SMParser :=
  let acceptTokens :=
    (if options.dialect = "oracle" then [(⟨"keyword", "DECLARE"⟩ : AcceptToken)] else []) ++
      [⟨"keyword", "BEGIN"⟩]
  stateMachineStatementParser { createInitialStatement with type := some "ANON_BLOCK" }
    [{ preCanGoToNext := fun _ => false,
       validation := some { acceptTokens := acceptTokens },
       effect := .startOnly,
       postCanGoToNext := fun _ => true }] options

/-- `createInsertStatementParser(options)`. -/
def createInsertStatementParser (options : ParseOptions) : SMParser :=
  stateMachineStatementParser createInitialStatement
    [{ preCanGoToNext := fun _ => false,
       validation := some { acceptTokens := [⟨"keyword", "INSERT"⟩] },
       effect := .fixType "INSERT",
       postCanGoToNext := fun _ => true }] options

/-- `createUpdateStatementParser(options)`. -/
def createUpdateStatementParser (options : ParseOptions) : SMParser :=
  stateMachineStatementParser createInitialStatement
    [{ preCanGoToNext := fun _ => false,
       validation := some { acceptTokens := [⟨"keyword", "UPDATE"⟩] },
       effect := .fixType "UPDATE",
       postCanGoToNext := fun _ => true }] options

/-- `createDeleteStatementParser(options)`. -/
def createDeleteStatementParser (options : ParseOptions) : SMParser :=
  stateMachineStatementParser createInitialStatement
    [{ preCanGoToNext := fun _ => false,
       validation := some { acceptTokens := [⟨"keyword", "DELETE"⟩] },
       effect := .fixType "DELETE",
       postCanGoToNext := fun _ => true }] options

/-- `createCreateStatementParser(options)`. -/
def createCreateStatementParser (options : ParseOptions) : SMParser :=
  let acceptTokens :=
    (if options.dialect ≠ "sqlite" then
      [(⟨"keyword", "DATABASE"⟩ : AcceptToken), ⟨"keyword", "SCHEMA"⟩, ⟨"keyword", "PROCEDURE"⟩]
     else []) ++
    [⟨"keyword", "TABLE"⟩, ⟨"keyword", "VIEW"⟩, ⟨"keyword", "TRIGGER"⟩,
     ⟨"keyword", "FUNCTION"⟩, ⟨"keyword", "INDEX"⟩]
  stateMachineStatementParser createInitialStatement
    [{ preCanGoToNext := fun _ => false,
       validation := some { acceptTokens := [⟨"keyword", "CREATE"⟩] },
       effect := .startOnly,
       postCanGoToNext := fun _ => true },
     { preCanGoToNext := fun _ => false,
       validation := some { requireBefore := ["whitespace"], acceptTokens := acceptTokens },
       effect := .typeFromWord "CREATE_",
       postCanGoToNext := fun _ => true }] options

/-- `createDropStatementParser(options)`. -/
def createDropStatementParser (options : ParseOptions) : SMParser :=
  let acceptTokens :=
    (if options.dialect ≠ "sqlite" then
      [(⟨"keyword", "DATABASE"⟩ : AcceptToken), ⟨"keyword", "SCHEMA"⟩, ⟨"keyword", "PROCEDURE"⟩]
     else []) ++
    [⟨"keyword", "TABLE"⟩, ⟨"keyword", "VIEW"⟩, ⟨"keyword", "TRIGGER"⟩,
     ⟨"keyword", "FUNCTION"⟩, ⟨"keyword", "INDEX"⟩]
  stateMachineStatementParser createInitialStatement
    [{ preCanGoToNext := fun _ => false,
       validation := some { acceptTokens := [⟨"keyword", "DROP"⟩] },
       effect := .startOnly,
       postCanGoToNext := fun _ => true },
     { preCanGoToNext := fun _ => false,
       validation := some { requireBefore := ["whitespace"], acceptTokens := acceptTokens },
       effect := .typeFromWord "DROP_",
       postCanGoToNext := fun _ => true }] options

/-- `createAlterStatementParser(options)`. -/
def createAlterStatementParser (options : ParseOptions) : SMParser :=
  let acceptTokens :=
    (if options.dialect ≠ "sqlite" then
      [(⟨"keyword", "DATABASE"⟩ : AcceptToken), ⟨"keyword", "SCHEMA"⟩, ⟨"keyword", "TRIGGER"⟩,
       ⟨"keyword", "FUNCTION"⟩, ⟨"keyword", "INDEX"⟩] ++
      (if options.dialect ≠ "bigquery" then [(⟨"keyword", "PROCEDURE"⟩ : AcceptToken)] else [])
     else []) ++
    [⟨"keyword", "TABLE"⟩, ⟨"keyword", "VIEW"⟩]
  stateMachineStatementParser createInitialStatement
    [{ preCanGoToNext := fun _ => false,
       validation := some { acceptTokens := [⟨"keyword", "ALTER"⟩] },
       effect := .startOnly,
       postCanGoToNext := fun _ => true },
     { preCanGoToNext := fun _ => false,
       validation := some { requireBefore := ["whitespace"], acceptTokens := acceptTokens },
       effect := .typeFromWord "ALTER_",
       postCanGoToNext := fun _ => true }] options

/-- `createTruncateStatementParser(options)`. -/
def createTruncateStatementParser (options : ParseOptions) : SMParser :=
  stateMachineStatementParser createInitialStatement
    [{ preCanGoToNext := fun _ => false,
       validation := some { acceptTokens := [⟨"keyword", "TRUNCATE"⟩] },
       effect := .fixType "TRUNCATE",
       postCanGoToNext := fun _ => true }] options

/-- `createShowStatementParser(options)`. -/
def createShowStatementParser (options : ParseOptions) : SMParser :=
  stateMachineStatementParser createInitialStatement
    [{ preCanGoToNext := fun _ => false,
       validation := some { acceptTokens := [⟨"keyword", "SHOW"⟩] },
       effect := .startOnly,
       postCanGoToNext := fun _ => true },
     { preCanGoToNext := fun _ => false,
       validation := some
         { requireBefore := ["whitespace"],
           acceptTokens :=
             [⟨"keyword", "DATABASES"⟩, ⟨"keyword", "DATABASE"⟩, ⟨"keyword", "KEYS"⟩,
              ⟨"keyword", "INDEX"⟩, ⟨"keyword", "COLUMNS"⟩, ⟨"keyword", "TABLES"⟩,
              ⟨"keyword", "TABLE"⟩, ⟨"keyword", "BINARY"⟩, ⟨"keyword", "BINLOG"⟩,
              ⟨"keyword", "CHARACTER"⟩, ⟨"keyword", "COLLATION"⟩, ⟨"keyword", "CREATE"⟩,
              ⟨"keyword", "ENGINE"⟩, ⟨"keyword", "ENGINES"⟩, ⟨"keyword", "ERRORS"⟩,
              ⟨"keyword", "EVENTS"⟩, ⟨"keyword", "FUNCTION"⟩, ⟨"keyword", "GRANTS"⟩,
              ⟨"keyword", "MASTER"⟩, ⟨"keyword", "OPEN"⟩, ⟨"keyword", "PLUGINS"⟩,
              ⟨"keyword", "PRIVILEGES"⟩, ⟨"keyword", "PROCEDURE"⟩, ⟨"keyword", "PROCESSLIST"⟩,
              ⟨"keyword", "PROFILE"⟩, ⟨"keyword", "PROFILES"⟩, ⟨"keyword", "RELAYLOG"⟩,
              ⟨"keyword", "REPLICAS"⟩, ⟨"keyword", "REPLICA"⟩, ⟨"keyword", "SLAVE"⟩,
              ⟨"keyword", "STATUS"⟩, ⟨"keyword", "TRIGGERS"⟩, ⟨"keyword", "VARIABLES"⟩,
              ⟨"keyword", "WARNINGS"⟩] },
       effect := .showWord,
       postCanGoToNext := fun _ => true }] options

/-- `createUnknownStatementParser(options)`: a single step with no
validation. -/
def createUnknownStatementParser (options : ParseOptions) : SMParser :=
  stateMachineStatementParser createInitialStatement
    [{ preCanGoToNext := fun _ => false,
       validation := none,
       effect := .fixType "UNKNOWN",
       postCanGoToNext := fun _ => true }] options

/-- `createStatementParserByToken(token, nextToken, options)`: selects a
parser by the leading keyword; with strict mode off any unrecognized
token yields the unknown parser, otherwise the source panics. -/
def createStatementParserByToken (token nextToken : Token) (options : ParseOptions) :
    Except String SMParser :=
  let byKeyword : Option SMParser :=
    if token.type = TokenType.keyword then
      let u := goUpper token.value
      if u = "SELECT" then some (createSelectStatementParser options)
      else if u = "CREATE" then some (createCreateStatementParser options)
      else if u = "SHOW" then
        if options.dialect = "mysql" ∨ options.dialect = "generic" then
          some (createShowStatementParser options)
        else none
      else if u = "DROP" then some (createDropStatementParser options)
      else if u = "ALTER" then some (createAlterStatementParser options)
      else if u = "INSERT" then some (createInsertStatementParser options)
      else if u = "UPDATE" then some (createUpdateStatementParser options)
      else if u = "DELETE" then some (createDeleteStatementParser options)
      else if u = "TRUNCATE" then some (createTruncateStatementParser options)
      else if u = "BEGIN" then
        if (options.dialect = "bigquery" ∨ options.dialect = "oracle") ∧
            goUpper nextToken.value ≠ "TRANSACTION" then
          some (createBlockStatementParser options)
        else none
      else if u = "DECLARE" then
        if options.dialect = "oracle" then some (createBlockStatementParser options)
        else none
      else none
    else none
  match byKeyword with
  | some p => .ok p
  | none =>
    if ¬options.isStrict then .ok (createUnknownStatementParser options)
    else .error ("Invalid statement parser \"" ++ token.value ++ "\"")

/-- Go `cteState`; of the `*State` field only `Start` is ever read
(`cte.state.Start`), kept here as `stateStart` (initially the top-level
state's `Start`, which is `0`). -/
structure CteState where
  isCte : Bool := false
  asSeen : Bool := false
  statementEnd : Bool := false
  parens : Int := 0
  stateStart : Int := 0
  params : List String := []

/-- `ignoreOutsideBlankTokens` in `Parse`. -/
def ignoreOutsideBlankTokens : List TokenType :=
  [TokenType.whitespace, TokenType.commentInline, TokenType.commentBlock, TokenType.semicolon]

/-- The mutable state of `Parse`'s main loop: `prevState.Position`, the
active statement parser, the CTE tracker, and the accumulated tokens and
body. -/
structure LoopSt where
  prevPos : Int
  parser : Option SMParser
  cte : CteState
  tokens : List Token
  body : List ConcreteStatement

/-- `initState(nil, prevState)`. -/
def initStateFrom (prev : State) : State :=
  { input := prev.input, position := prev.position, start := prev.position + 1,
    endPos := (prev.input.length : Int) - 1 }

/-- `nextNonWhitespaceToken(state, dialect, paramTypes)`: the lookahead
used by `Parse`; it scans copies, so the caller's state is unchanged. -/
def nextNonWhitespaceTokenGo : Nat → State → String → ParamTypes → Token
  | 0, _, _, _ => { type := TokenType.unknown, value := "", start := 0, endPos := 0 }
  | f + 1, st, d, pt =>
    match scanToken (initStateFrom st) d pt with
    | (s', tok) =>
      if tok.type = TokenType.whitespace then nextNonWhitespaceTokenGo f s' d pt else tok

/-- The active-parser step of `Parse`'s loop body: `AddToken`, then if
the statement got its `EndStatement` marker, set its `End` to the
token's end and emit it (`ToConcrete`), clearing the parser. -/
def runActiveParser (p : SMParser) (tok nextTok : Token) :
    Except String (SMParser ⊕ ConcreteStatement) :=
  match addToken p tok nextTok with
  | .error e => .error e
  | .ok p' =>
    if p'.statement.endStatement.isSome then
      .ok (Sum.inr (Statement.toConcrete { p'.statement with endPos := tok.endPos }))
    else .ok (Sum.inl p')

/-- The CTE-tracking update of `Parse`'s loop (parenthesis counting and
the `AS` flag) applied when a CTE header is being read. -/
def cteTrack (cte : CteState) (token : Token) : CteState :=
  if cte.asSeen then
    if token.value = "(" then { cte with parens := cte.parens + 1 }
    else if token.value = ")" then
      if cte.parens - 1 = 0 then
        { cte with parens := cte.parens - 1, statementEnd := true }
      else { cte with parens := cte.parens - 1 }
    else cte
  else if goUpper token.value = "AS" then { cte with asSeen := true }
  else cte

/-- The no-active-parser arm of `Parse`'s loop body: blank skipping, CTE
tracking and statement-parser creation. `startPos` is the scanned
token's start (`tokenState.Start`) and `newPrev` the scanning state's
final position. -/
def parseStepOutside (opts : ParseOptions) (ls : LoopSt) (token nextToken : Token)
    (startPos newPrev : Int) : Except String LoopSt :=
  if ¬ls.cte.isCte ∧ ignoreOutsideBlankTokens.contains token.type then
    .ok { ls with tokens := ls.tokens ++ [token], prevPos := newPrev }
  else if ¬ls.cte.isCte ∧ token.type = TokenType.keyword ∧ goUpper token.value = "WITH" then
    .ok { ls with
          cte := { ls.cte with isCte := true, stateStart := startPos },
          tokens := ls.tokens ++ [token],
          prevPos := newPrev }
  else if ls.cte.isCte ∧ token.type = TokenType.semicolon then
    .ok { ls with
          tokens := ls.tokens ++ [token],
          prevPos := newPrev,
          body := ls.body ++
            [{ start := ls.cte.stateStart, endPos := token.endPos,
               type := "UNKNOWN", executionType := "UNKNOWN",
               parameters := [], tables := [] }],
          cte := { ls.cte with
                   isCte := false, asSeen := false,
                   statementEnd := false, parens := 0 } }
  else if ls.cte.isCte ∧ ¬ls.cte.statementEnd then
    .ok { ls with
          cte := cteTrack ls.cte token,
          tokens := ls.tokens ++ [token],
          prevPos := newPrev }
  else if ls.cte.isCte ∧ ls.cte.statementEnd ∧ token.value = "," then
    .ok { ls with
          cte := { ls.cte with asSeen := false, statementEnd := false },
          tokens := ls.tokens ++ [token],
          prevPos := newPrev }
  else if ls.cte.isCte ∧ ls.cte.statementEnd ∧ ignoreOutsideBlankTokens.contains token.type then
    .ok { ls with tokens := ls.tokens ++ [token], prevPos := newPrev }
  else
    match createStatementParserByToken token nextToken opts with
    | .error e => .error e
    | .ok p0 =>
      if ls.cte.isCte then
        .ok { ls with
              parser := some { p0 with statement :=
                { p0.statement with
                  start := ls.cte.stateStart,
                  isCte := some true,
                  parameters := p0.statement.parameters ++ ls.cte.params } },
              cte := { ls.cte with
                       params := [], isCte := false, asSeen := false,
                       statementEnd := false } }
      else .ok { ls with parser := some p0 }

/-- One iteration of `Parse`'s main loop: scan a token and its
non-whitespace lookahead and route it to the CTE tracker, a new
statement parser, or the active parser. In the parser-creation branch
the source does not advance `prevState`, so the creating token is
re-scanned and fed to the new parser on the next iteration. -/
def parseStep (opts : ParseOptions) (input : List Char) (ls : LoopSt) : Except String LoopSt :=
  match scanToken
      { input := input, position := ls.prevPos, start := ls.prevPos + 1,
        endPos := (input.length : Int) - 1 } opts.dialect opts.paramTypes with
  | (tokState, token) =>
    match ls.parser with
    | some p =>
      match runActiveParser p token
          (nextNonWhitespaceTokenGo (input.length + 2) tokState opts.dialect opts.paramTypes) with
      | .error e => .error e
      | .ok (Sum.inl p') =>
        .ok { ls with
              prevPos := tokState.position,
              tokens := ls.tokens ++ [token],
              parser := some p' }
      | .ok (Sum.inr cs) =>
        .ok { ls with
              prevPos := tokState.position,
              tokens := ls.tokens ++ [token],
              parser := none,
              body := ls.body ++ [cs] }
    | none =>
      match parseStepOutside opts ls token
          (nextNonWhitespaceTokenGo (input.length + 2) tokState opts.dialect opts.paramTypes)
          (ls.prevPos + 1) tokState.position with
      | .error e => .error e
      | .ok ls' =>
        .ok (if ls'.cte.isCte ∧ token.type = TokenType.parameter then
               { ls' with cte := { ls'.cte with params := ls'.cte.params ++ [token.value] } }
             else ls')

/-- `Parse`'s main loop (`for prevState.Position < topLevelState.End`),
fuel-indexed; the fuel the entry point supplies strictly exceeds the
loop's step count, which is bounded because every iteration either
advances `prevPos` or replaces a `none` parser by an active one. -/
def parseLoopGo (opts : ParseOptions) (input : List Char) : Nat → LoopSt → Except String LoopSt
  | 0, _ => .error "parse loop fuel exhausted"
  | f + 1, ls =>
    if ls.prevPos < (input.length : Int) - 1 then
      match parseStep opts input ls with
      | .error e => .error e
      | .ok ls' => parseLoopGo opts input f ls'
    else .ok ls

/-- Go `ParseResult` (types.go). -/
structure ParseResult where
  type : String
  start : Int
  endPos : Int
  body : List ConcreteStatement
  tokens : List Token
deriving DecidableEq

/-- `Parse(input, isStrict, dialect, identifyTables, paramTypes)`; Go
`panic`s are `Except.error`s. After the loop, a still-active parser
without an end marker is finalized with `End = len(input)-1`. -/
def parse (input : List Char) (isStrict : Bool) (dialect : String)
    (identifyTables : Bool) (paramTypes : ParamTypes) : Except String ParseResult :=
  let opts : ParseOptions :=
    { isStrict := isStrict, dialect := dialect, identifyTables := identifyTables,
      paramTypes := paramTypes }
  let init : LoopSt := { prevPos := -1, parser := none, cte := {}, tokens := [], body := [] }
  match parseLoopGo opts input (2 * input.length + 3) init with
  | .error e => .error e
  | .ok ls =>
    let body :=
      match ls.parser with
      | some p =>
        if p.statement.endStatement = none then
          ls.body ++ [Statement.toConcrete { p.statement with endPos := (input.length : Int) - 1 }]
        else ls.body
      | none => ls.body
    .ok { type := "QUERY", start := 0, endPos := (input.length : Int) - 1,
          body := body, tokens := ls.tokens }

/-- `DIALECTS` (types.go). -/
def DIALECTS : List String :=
  ["mssql", "sqlite", "mysql", "oracle", "psql", "bigquery", "generic"]

/-- `DefaultParamTypesFor(dialect)`. -/
def defaultParamTypesFor (dialect : String) : ParamTypes :=
  if dialect = "psql" then { numbered := ['$'] }
  else if dialect = "mssql" then { named := [':'] }
  else if dialect = "bigquery" then { positional := some true, named := ['@'], quoted := ['@'] }
  else if dialect = "sqlite" then { positional := some true, numbered := ['?'], named := [':', '@'] }
  else { positional := some true }

/-- Go `IdentifyOptions` (types.go): nilable pointer fields as options. -/
structure IdentifyOptions where
  strict : Option Bool := none
  dialect : Option String := none
  identifyTables : Option Bool := none
  paramTypes : Option ParamTypes := none

/-- Go `IdentifyResult` (types.go); `Text` is the Go byte-slice
`query[start:min(end+1, len(query))]`, kept as its bytes. -/
structure IdentifyResult where
  start : Int
  endPos : Int
  text : List Nat
  type : String
  executionType : String
  parameters : List String
  tables : List String
deriving DecidableEq

/-- The UTF-8 encoding of one rune, as Go lays a string out in memory. -/
def charUtf8Bytes (c : Char) : List Nat :=
  let n := c.toNat
  if n < 128 then [n]
  else if n < 2048 then [192 + n / 64, 128 + n % 64]
  else if n < 65536 then [224 + n / 4096, 128 + (n / 64) % 64, 128 + n % 64]
  else [240 + n / 262144, 128 + (n / 4096) % 64, 128 + (n / 64) % 64, 128 + n % 64]

/-- The UTF-8 bytes of a rune sequence. -/
def utf8Encode (l : List Char) : List Nat :=
  l.foldr (fun c acc => charUtf8Bytes c ++ acc) []

/-- Go slice `l[a:b]` with Go's bounds panic, for the `Text` slice of
`Identify` (its high bound is already clamped by `min` there). -/
def goByteSlice (bytes : List Nat) (a b : Int) : Except String (List Nat) :=
  if a < 0 ∨ b < a ∨ b > (bytes.length : Int) then
    .error "runtime error: slice bounds out of range"
  else .ok ((bytes.take b.toNat).drop a.toNat)

/-- Lexicographic order on rune sequences by code point; Go's bytewise
string order coincides with it because UTF-8 preserves code-point
order. -/
def charListLe : List Char → List Char → Bool
  | [], _ => true
  | _ :: _, [] => false
  | x :: xs, y :: ys =>
    if x.toNat < y.toNat then true
    else if y.toNat < x.toNat then false
    else charListLe xs ys

/-- Go's `<=` on strings (bytewise). -/
def strLeB (a b : String) : Bool :=
  charListLe a.data b.data

/-- Ascending insertion of `x` into an already sorted list. -/
def insertStr (x : String) : List String → List String
  | [] => [x]
  | y :: ys => if strLeB x y then x :: y :: ys else y :: insertStr x ys

/-- `sort.Strings`: ascending lexicographic sort. The ascending
rearrangement is unique because the order is total and antisymmetric, so
this insertion sort models `sort.Strings` exactly. -/
def goSortStrings (l : List String) : List String :=
  List.foldr insertStr [] l

/-- The error `Identify` returns for an unrecognized dialect
(`fmt.Errorf` with the `DIALECTS` slice formatted by `%v`). -/
def unknownDialectMsg : String :=
  "Unknown dialect. Allowed values: [mssql sqlite mysql oracle psql bigquery generic]"

/-- The result-assembly loop of `Identify` (`for i, statement := range
result.Body`): each statement becomes an `IdentifyResult`; the `Text`
slice panics (propagating as an error) on a negative start. -/
def identifyMapResults (queryBytes : List Nat) (sortParams : Bool) :
    List ConcreteStatement → Except String (List IdentifyResult)
  | [] => .ok []
  | statement :: rest =>
    let parameters :=
      if sortParams then goSortStrings statement.parameters else statement.parameters
    match goByteSlice queryBytes statement.start
        (min (statement.endPos + 1) ((queryBytes.length : Int))) with
    | .error e => .error e
    | .ok text =>
      match identifyMapResults queryBytes sortParams rest with
      | .error e => .error e
      | .ok rs =>
        .ok (({ start := statement.start, endPos := statement.endPos, text := text,
                type := statement.type, executionType := statement.executionType,
                parameters := parameters, tables := statement.tables } : IdentifyResult) :: rs)

/-- `Identify(query, options)` (identifier.go): defaults (`strict=true`,
`dialect=generic`, `identifyTables=false`, dialect-derived parameter
types), the dialect validity check, `Parse`, the PostgreSQL
default-configuration parameter sort, and result assembly; the deferred
`recover` that turns any panic into a returned error is the propagation
of `Except.error`. -/
def identify (query : String) (options : IdentifyOptions) :
    Except String (List IdentifyResult) :=
  let isStrict := options.strict.getD true
  let dialect := options.dialect.getD "generic"
  if ¬DIALECTS.contains dialect then .error unknownDialectMsg
  else
    let paramTypes := options.paramTypes.getD (defaultParamTypesFor dialect)
    let identifyTables := options.identifyTables.getD false
    match parse query.toList isStrict dialect identifyTables paramTypes with
    | .error e => .error e
    | .ok result =>
      let sortParams : Bool := (dialect == "psql") && options.paramTypes.isNone
      identifyMapResults (utf8Encode query.toList) sortParams result.body

/-- The token-coverage predicate of the spec: the token spans are
consecutive, non-empty, and exactly partition `[a, b)`. -/
def coversB : List Token → Int → Int → Bool
  | [], a, b => a == b
  | t :: ts, a, b => (t.start == a) && decide (a ≤ t.endPos) && coversB ts (t.endPos + 1) b

/-- What one `AddToken`-internal stage may do to the statement fields the
span invariants depend on: it never touches the end marker, moves
`start` only to the current token's start, and extends `parameters` only
for parameter tokens. -/
def AddTokPreserves (p p' : SMParser) (tok : Token) : Prop :=
  p'.statement.endStatement = p.statement.endStatement ∧
  (p'.statement.start = p.statement.start ∨ p'.statement.start = tok.start) ∧
  (tok.type ≠ TokenType.parameter → p'.statement.parameters = p.statement.parameters)

/-- The invariant every scanner preserves on the tokenizer state: the
input and `Start` are untouched and the position stays between `Start`
and the last index. -/
def ScanInv (base : Int) (input : List Char) (s : State) : Prop :=
  s.input = input ∧ s.start = base ∧ base ≤ s.position ∧
    s.position ≤ (input.length : Int) - 1

/-! ## Claim theorems -/

/-- C3: `identify("LIST * FROM Persons", {strict: true})` fails with a
single error whose message contains (here: equals) the text
`Invalid statement parser "LIST"`, and returns no results (`Except.error`
carries none). -/
theorem c3_strict_list_error :
    identify "LIST * FROM Persons" { strict := some true } =
      Except.error "Invalid statement parser \"LIST\"" := by
  rfl

/-- C4 (counterexample): at the claim's exact input —
`identify("LIST * FROM Persons", {strict: false})` — the single returned
result has end offset `18`, not `14` as the claim states (the input is
19 characters long; `14` was the end for the shorter test input
`"LIST * FROM foo"`). -/
theorem c4_nonstrict_list_counterexample :
    (identify "LIST * FROM Persons" { strict := some false }).map
      (fun rs => rs.map (fun r => r.endPos)) = Except.ok [18] := by
  rfl

/-- C4 (amended): `identify("LIST * FROM Persons", {strict: false})`
succeeds and returns exactly one result with type `UNKNOWN`,
execution type `UNKNOWN`, start `0` and end `18`. -/
theorem c4_nonstrict_list :
    (identify "LIST * FROM Persons" { strict := some false }).map
      (fun rs => rs.map (fun r => (r.start, r.endPos, r.type, r.executionType)))
    = Except.ok [(0, 18, "UNKNOWN", "UNKNOWN")] := by
  rfl

/-- C5: identifying `"WITH cte AS (SELECT 1) SELECT * FROM cte;"` yields
exactly one statement, of type `SELECT`, whose start offset is `0` (the
`WITH` keyword), not the offset `23` of the `SELECT` after the CTE
header. -/
theorem c5_cte_folding :
    (identify "WITH cte AS (SELECT 1) SELECT * FROM cte;" {}).map
      (fun rs => rs.map (fun r => (r.start, r.endPos, r.type)))
    = Except.ok [(0, 40, "SELECT")] := by
  rfl

/-- C8: `identify("SELECT * FROM Persons", {dialect: generic, strict:
true})` returns exactly one result: type `SELECT`, execution type
`LISTING`, start `0`, end `20`, empty tables, empty parameters. -/
theorem c8_simple_select :
    (identify "SELECT * FROM Persons" { strict := some true, dialect := some "generic" }).map
      (fun rs => rs.map (fun r =>
        (r.start, r.endPos, r.type, r.executionType, r.tables, r.parameters)))
    = Except.ok [(0, 20, "SELECT", "LISTING", [], [])] := by
  rfl

/-- C7: for every query and every strict setting, naming a dialect
outside the seven recognized values makes `identify` return the
invalid-dialect error (and no results), before and independently of
anything strict mode controls. -/
theorem c7_invalid_dialect (q : String) (opts : IdentifyOptions) (d : String)
    (hd : opts.dialect = some d) (hv : DIALECTS.contains d = false) :
    identify q opts = Except.error unknownDialectMsg := by
  have hv' : d ∉ DIALECTS := by simpa using hv
  simp [identify, hd, hv']

/-- C7 (witness): a concrete invocation with an unrecognized dialect in
strict mode. -/
theorem c7_invalid_dialect_witness :
    identify "SELECT 1" { dialect := some "postgres", strict := some true } =
      Except.error unknownDialectMsg :=
  c7_invalid_dialect "SELECT 1" { dialect := some "postgres", strict := some true }
    "postgres" rfl (by decide)

/-- C9: whenever the parse of a query (with the options' resolved
configuration) panics — `parse` returns an error — the public `identify`
returns that panic converted to an error, with no result list
(`Except.error` carries none): the `recover` at the `Identify` boundary
converts every internal panic. -/
theorem c9_panic_recovered (q : String) (opts : IdentifyOptions) (m : String)
    (hv : DIALECTS.contains (opts.dialect.getD "generic") = true)
    (hp : parse q.toList (opts.strict.getD true) (opts.dialect.getD "generic")
        (opts.identifyTables.getD false)
        (opts.paramTypes.getD (defaultParamTypesFor (opts.dialect.getD "generic")))
      = Except.error m) :
    identify q opts = Except.error m := by
  have hv' : (opts.dialect.getD "generic") ∈ DIALECTS := by simpa using hv
  have hp' : parse q.data (opts.strict.getD true) (opts.dialect.getD "generic")
      (opts.identifyTables.getD false)
      (opts.paramTypes.getD (defaultParamTypesFor (opts.dialect.getD "generic")))
    = Except.error m := hp
  simp [identify, hv', hp']

/-- C9 (witness): a concrete strict-mode classification panic surfaces
as the identical error from `identify`. -/
theorem c9_panic_recovered_witness :
    identify "FOO" { strict := some true } =
      Except.error "Invalid statement parser \"FOO\"" :=
  c9_panic_recovered "FOO" { strict := some true }
    "Invalid statement parser \"FOO\"" (by decide) (by rfl)

theorem charListLe_total : ∀ (a b : List Char), charListLe a b = true ∨ charListLe b a = true
  | [], _ => Or.inl rfl
  | _ :: _, [] => Or.inr rfl
  | x :: xs, y :: ys => by
    by_cases h1 : x.toNat < y.toNat
    · left; simp [charListLe, h1]
    · by_cases h2 : y.toNat < x.toNat
      · right; simp [charListLe, h2]
      · rcases charListLe_total xs ys with h | h
        · left; simp [charListLe, h1, h2, h]
        · right; simp [charListLe, h1, h2, h]

theorem charListLe_trans :
    ∀ (a b c : List Char), charListLe a b = true → charListLe b c = true → charListLe a c = true
  | [], _, _ => by intro _ _; rfl
  | _ :: _, [], _ => by intro h _; simp [charListLe] at h
  | _ :: _, _ :: _, [] => by intro _ h; simp [charListLe] at h
  | x :: xs, y :: ys, z :: zs => by
    intro hab hbc
    by_cases hxy : x.toNat < y.toNat
    · by_cases hyz : y.toNat < z.toNat
      · simp [charListLe, Nat.lt_trans hxy hyz]
      · by_cases hzy : z.toNat < y.toNat
        · simp [charListLe, hyz, hzy] at hbc
        · have hyz' : y.toNat = z.toNat := Nat.le_antisymm (Nat.not_lt.mp hzy) (Nat.not_lt.mp hyz)
          simp [charListLe, hyz' ▸ hxy]
    · by_cases hyx : y.toNat < x.toNat
      · simp [charListLe, hxy, hyx] at hab
      · have hxy' : x.toNat = y.toNat := Nat.le_antisymm (Nat.not_lt.mp hyx) (Nat.not_lt.mp hxy)
        simp only [charListLe] at hab
        rw [if_neg hxy, if_neg hyx] at hab
        by_cases hyz : y.toNat < z.toNat
        · simp [charListLe, hxy' ▸ hyz]
        · by_cases hzy : z.toNat < y.toNat
          · simp [charListLe, hyz, hzy] at hbc
          · simp only [charListLe] at hbc
            rw [if_neg hyz, if_neg hzy] at hbc
            have hxz1 : ¬ x.toNat < z.toNat := by omega
            have hxz2 : ¬ z.toNat < x.toNat := by omega
            simp only [charListLe]
            rw [if_neg hxz1, if_neg hxz2]
            exact charListLe_trans xs ys zs hab hbc

theorem strLeB_total (a b : String) : strLeB a b = true ∨ strLeB b a = true :=
  charListLe_total a.data b.data

theorem strLeB_trans {a b c : String} (h1 : strLeB a b = true) (h2 : strLeB b c = true) :
    strLeB a c = true :=
  charListLe_trans a.data b.data c.data h1 h2

theorem insertStr_perm (x : String) : ∀ (l : List String), List.Perm (insertStr x l) (x :: l)
  | [] => List.Perm.refl _
  | y :: ys => by
    unfold insertStr
    split
    · exact List.Perm.refl _
    · exact (List.Perm.cons y (insertStr_perm x ys)).trans (List.Perm.swap x y ys)

theorem goSortStrings_perm : ∀ (l : List String), List.Perm (goSortStrings l) l
  | [] => List.Perm.refl _
  | x :: xs =>
    (insertStr_perm x (goSortStrings xs)).trans (List.Perm.cons x (goSortStrings_perm xs))

theorem insertStr_sorted (x : String) :
    ∀ (l : List String), List.Pairwise (fun a b => strLeB a b = true) l →
      List.Pairwise (fun a b => strLeB a b = true) (insertStr x l)
  | [], _ => List.pairwise_singleton _ _
  | y :: ys, h => by
    unfold insertStr
    rcases List.pairwise_cons.mp h with ⟨hy, hys⟩
    split
    · rename_i hxy
      exact List.pairwise_cons.mpr
        ⟨fun b hb => by
          rcases List.mem_cons.mp hb with rfl | hb
          · exact hxy
          · exact strLeB_trans hxy (hy b hb), h⟩
    · rename_i hxy
      have hyx : strLeB y x = true := by
        rcases strLeB_total x y with h' | h'
        · exact absurd h' hxy
        · exact h'
      exact List.pairwise_cons.mpr
        ⟨fun b hb => by
          rcases List.mem_cons.mp ((insertStr_perm x ys).mem_iff.mp hb) with rfl | hb
          · exact hyx
          · exact hy b hb, insertStr_sorted x ys hys⟩

theorem goSortStrings_sorted :
    ∀ (l : List String), List.Pairwise (fun a b => strLeB a b = true) (goSortStrings l)
  | [] => List.Pairwise.nil
  | x :: xs => insertStr_sorted x (goSortStrings xs) (goSortStrings_sorted xs)

theorem identifyMapResults_forall2 (qb : List Nat) (sp : Bool) :
    ∀ (body : List ConcreteStatement) (rs : List IdentifyResult),
      identifyMapResults qb sp body = Except.ok rs →
      List.Forall₂ (fun (r : IdentifyResult) (st : ConcreteStatement) =>
        r.parameters = if sp then goSortStrings st.parameters else st.parameters) rs body
  | [], rs, h => by
    simp only [identifyMapResults, Except.ok.injEq] at h
    rw [← h]
    exact List.Forall₂.nil
  | st :: rest, rs, h => by
    rw [identifyMapResults] at h
    split at h
    · exact absurd h (by simp)
    · split at h
      · exact absurd h (by simp)
      · rename_i rs' hrest
        simp only [Except.ok.injEq] at h
        subst h
        exact List.Forall₂.cons rfl (identifyMapResults_forall2 qb sp rest rs' hrest)

/-- C6: relative to the parse of the resolved configuration, each
returned statement's parameter list is, for the `psql` dialect with no
caller-supplied parameter configuration, lexicographically sorted (Go's
bytewise string order) and a permutation of the captured list; for every
other dialect or an explicit configuration it is exactly the captured
list, in capture order. -/
theorem c6_psql_param_sort (q : String) (opts : IdentifyOptions) (d : String) (b tb : Bool)
    (pt : ParamTypes) (pr : ParseResult) (rs : List IdentifyResult)
    (hd : opts.dialect.getD "generic" = d)
    (hb : opts.strict.getD true = b)
    (htb : opts.identifyTables.getD false = tb)
    (hpt : opts.paramTypes.getD (defaultParamTypesFor d) = pt)
    (hv : DIALECTS.contains d = true)
    (hp : parse q.toList b d tb pt = Except.ok pr)
    (hi : identify q opts = Except.ok rs) :
    List.Forall₂ (fun (r : IdentifyResult) (st : ConcreteStatement) =>
      if d = "psql" ∧ opts.paramTypes.isNone = true then
        List.Pairwise (fun a b => strLeB a b = true) r.parameters ∧
          List.Perm r.parameters st.parameters
      else r.parameters = st.parameters) rs pr.body := by
  have hv' : d ∈ DIALECTS := by simpa using hv
  have hp' : parse q.data b d tb pt = Except.ok pr := hp
  have hid : identify q opts = identifyMapResults (utf8Encode q.data)
      ((d == "psql") && opts.paramTypes.isNone) pr.body := by
    simp [identify, hd, hb, htb, hpt, hv', hp']
  rw [hid] at hi
  refine (identifyMapResults_forall2 _ _ _ _ hi).imp ?_
  intro r st hr
  by_cases hc : d = "psql" ∧ opts.paramTypes.isNone = true
  · have hcb : ((d == "psql") && opts.paramTypes.isNone) = true := by
      simp [hc.1, hc.2]
    rw [hcb, if_pos rfl] at hr
    rw [if_pos hc, hr]
    exact ⟨goSortStrings_sorted _, goSortStrings_perm _⟩
  · have hcb : ((d == "psql") && opts.paramTypes.isNone) = false := by
      rcases Decidable.not_and_iff_or_not.mp hc with h | h
      · simp [h]
      · simp [Bool.eq_false_iff.mpr h]
    rw [hcb, if_neg (by simp)] at hr
    rw [if_neg hc]
    exact hr

/-- C6 (witness): a concrete PostgreSQL query whose parameters appear as
`$2, $1` and are returned sorted. -/
theorem c6_psql_param_sort_witness :
    List.Forall₂ (fun (r : IdentifyResult) (st : ConcreteStatement) =>
      if ("psql" : String) = "psql" ∧
          (({ dialect := some "psql" } : IdentifyOptions).paramTypes.isNone = true) then
        List.Pairwise (fun a b => strLeB a b = true) r.parameters ∧
          List.Perm r.parameters st.parameters
      else r.parameters = st.parameters)
      ((identify "select $2 $1" { dialect := some "psql" }).toOption.getD [])
      ((parse "select $2 $1".toList true "psql" false
          (defaultParamTypesFor "psql")).toOption.getD
        { type := "", start := 0, endPos := 0, body := [], tokens := [] }).body :=
  c6_psql_param_sort "select $2 $1" { dialect := some "psql" } "psql" true false
    (defaultParamTypesFor "psql")
    ((parse "select $2 $1".toList true "psql" false
        (defaultParamTypesFor "psql")).toOption.getD
      { type := "", start := 0, endPos := 0, body := [], tokens := [] })
    ((identify "select $2 $1" { dialect := some "psql" }).toOption.getD [])
    rfl rfl rfl rfl (by decide) (by rfl) (by rfl)

/-! ### `AddToken` stage lemmas -/

theorem setPrevToken_statement (p : SMParser) (t : Token) :
    (setPrevToken p t).statement = p.statement := by
  simp only [setPrevToken]
  split <;> rfl

theorem addTokenBlockOpen_statement (p : SMParser) (t nt : Token) :
    (addTokenBlockOpen p t nt).1.statement = p.statement := by
  simp only [addTokenBlockOpen]
  repeat' split
  all_goals simp [setPrevToken_statement]

theorem addTokenTables_fields (p : SMParser) (t nt : Token) :
    (addTokenTables p t nt).statement.endStatement = p.statement.endStatement ∧
    (addTokenTables p t nt).statement.start = p.statement.start ∧
    (addTokenTables p t nt).statement.parameters = p.statement.parameters := by
  refine ⟨?_, ?_, ?_⟩ <;> (unfold addTokenTables; split_ifs) <;> simp [apply_ite]

theorem addTokenParams_fields (p : SMParser) (t : Token) :
    (addTokenParams p t).statement.endStatement = p.statement.endStatement ∧
    (addTokenParams p t).statement.start = p.statement.start ∧
    (t.type ≠ TokenType.parameter →
      (addTokenParams p t).statement.parameters = p.statement.parameters) := by
  unfold addTokenParams
  split
  · rename_i hcond
    exact ⟨rfl, rfl, fun hne => absurd hcond.1 hne⟩
  · exact ⟨rfl, rfl, fun _ => rfl⟩

theorem applyStepEffect_fields (e : StepEffect) (st : Statement) (tok : Token) :
    (applyStepEffect e st tok).endStatement = st.endStatement ∧
    ((applyStepEffect e st tok).start = st.start ∨ (applyStepEffect e st tok).start = tok.start) ∧
    (applyStepEffect e st tok).parameters = st.parameters := by
  cases e <;> simp only [applyStepEffect]
  · split <;> simp
  · split <;> simp
  · simp
  · simp

theorem addTokPreserves_comp {p p1 p2 : SMParser} {tok : Token}
    (h1 : AddTokPreserves p p1 tok) (h2 : AddTokPreserves p1 p2 tok) :
    AddTokPreserves p p2 tok := by
  obtain ⟨e1, s1, pa1⟩ := h1
  obtain ⟨e2, s2, pa2⟩ := h2
  refine ⟨e2.trans e1, ?_, fun hne => (pa2 hne).trans (pa1 hne)⟩
  rcases s2 with h | h
  · rw [h]; exact s1
  · exact Or.inr h

theorem recomputeExecutionType_fields (st : Statement) :
    (recomputeExecutionType st).endStatement = st.endStatement ∧
    (recomputeExecutionType st).start = st.start ∧
    (recomputeExecutionType st).parameters = st.parameters := by
  unfold recomputeExecutionType
  split <;> (try split) <;> simp

theorem addTokPreserves_setPrev_same (p : SMParser) (tok : Token) (st : Statement)
    (he : st.endStatement = p.statement.endStatement)
    (hs : st.start = p.statement.start)
    (hpa : st.parameters = p.statement.parameters) :
    AddTokPreserves p (setPrevToken { p with statement := st } tok) tok := by
  refine ⟨?_, Or.inl ?_, fun _ => ?_⟩ <;> rw [setPrevToken_statement] <;> assumption

theorem addTokPreserves_setPrev_id (p : SMParser) (tok : Token) :
    AddTokPreserves p (setPrevToken p tok) tok :=
  ⟨by rw [setPrevToken_statement], Or.inl (by rw [setPrevToken_statement]),
    fun _ => by rw [setPrevToken_statement]⟩

theorem addTokenStepsCore_preserves (p : SMParser) (step : Step) (tok : Token) (p' : SMParser)
    (h : addTokenStepsCore p step tok = Except.ok p') :
    AddTokPreserves p p' tok := by
  unfold addTokenStepsCore at h
  split at h
  · exact absurd h (by simp)
  · split at h
    · exact absurd h (by simp)
    · simp only [Except.ok.injEq] at h
      subst h
      obtain ⟨ae, as', ap⟩ := applyStepEffect_fields step.effect p.statement tok
      obtain ⟨re, rs, rp⟩ := recomputeExecutionType_fields (applyStepEffect step.effect p.statement tok)
      refine ⟨?_, ?_, fun _ => ?_⟩ <;>
        simp only [setPrevToken_statement, apply_ite (fun (x : SMParser) => x.statement), ite_self]
      · exact re.trans ae
      · rcases as' with hcase | hcase
        · exact Or.inl (rs.trans hcase)
        · exact Or.inr (rs.trans hcase)
      · exact rp.trans ap

theorem addTokenSteps_preserves (p : SMParser) (tok : Token) (p' : SMParser)
    (h : addTokenSteps p tok = Except.ok p') :
    AddTokPreserves p p' tok := by
  unfold addTokenSteps at h
  split at h
  · exact absurd h (by simp)
  · split at h
    · split at h
      · exact absurd h (by simp)
      · exact addTokPreserves_comp
          (⟨rfl, Or.inl rfl, fun _ => rfl⟩ :
            AddTokPreserves p { p with currentStepIndex := p.currentStepIndex + 1 } tok)
          (addTokenStepsCore_preserves _ _ _ _ h)
    · exact addTokenStepsCore_preserves _ _ _ _ h

theorem addTokenSqlSecurity_preserves (p : SMParser) (tok : Token) (p' : SMParser)
    (h : addTokenSqlSecurity p tok = Except.ok p') :
    AddTokPreserves p p' tok := by
  unfold addTokenSqlSecurity at h
  split at h
  · simp only [Except.ok.injEq] at h
    subst h
    exact addTokPreserves_setPrev_same p tok _ rfl rfl rfl
  · split at h
    · simp only [Except.ok.injEq] at h
      subst h
      exact addTokPreserves_setPrev_same p tok _ rfl rfl rfl
    · split at h
      · simp only [Except.ok.injEq] at h
        subst h
        exact addTokPreserves_setPrev_same p tok _ rfl rfl rfl
      · have mid : AddTokPreserves p
            (if p.statement.sqlSecurity = some 2 then
              { p with statement := { p.statement with sqlSecurity := none } }
             else p) tok := by
          split <;> exact ⟨rfl, Or.inl rfl, fun _ => rfl⟩
        exact addTokPreserves_comp mid (addTokenSteps_preserves _ _ _ h)

theorem addTokenAfterDefiner_preserves (p : SMParser) (tok : Token) (p' : SMParser)
    (h : addTokenAfterDefiner p tok = Except.ok p') :
    AddTokPreserves p p' tok := by
  unfold addTokenAfterDefiner at h
  split at h
  · simp only [Except.ok.injEq] at h
    subst h
    exact addTokPreserves_setPrev_same p tok _ rfl rfl rfl
  · split at h
    · simp only [Except.ok.injEq] at h
      subst h
      exact addTokPreserves_setPrev_same p tok _ rfl rfl rfl
    · split at h
      · simp only [Except.ok.injEq] at h
        subst h
        exact addTokPreserves_setPrev_same p tok _ rfl rfl rfl
      · split at h
        · simp only [Except.ok.injEq] at h
          subst h
          exact addTokPreserves_setPrev_id p tok
        · have mid : AddTokPreserves p
              (if algorithmPos p then
                { p with statement := { p.statement with algorithm := none } }
               else p) tok := by
            split <;> exact ⟨rfl, Or.inl rfl, fun _ => rfl⟩
          exact addTokPreserves_comp mid (addTokenSqlSecurity_preserves _ _ _ h)

theorem addTokenDefiner_preserves (p : SMParser) (tok : Token) (p' : SMParser)
    (h : addTokenDefiner p tok = Except.ok p') :
    AddTokPreserves p p' tok := by
  unfold addTokenDefiner at h
  split at h
  · simp only [Except.ok.injEq] at h
    subst h
    exact addTokPreserves_setPrev_same p tok _ rfl rfl rfl
  · split at h
    · simp only [Except.ok.injEq] at h
      subst h
      exact addTokPreserves_setPrev_same p tok _ rfl rfl rfl
    · split at h
      · simp only [Except.ok.injEq] at h
        subst h
        exact addTokPreserves_setPrev_same p tok _ rfl rfl rfl
      · split at h
        · simp only [Except.ok.injEq] at h
          subst h
          exact addTokPreserves_setPrev_id p tok
        · have mid : AddTokPreserves p
              (if definerPos p then
                { p with statement := { p.statement with definer := none } }
               else p) tok := by
            split <;> exact ⟨rfl, Or.inl rfl, fun _ => rfl⟩
          exact addTokPreserves_comp mid (addTokenAfterDefiner_preserves _ _ _ h)

theorem addTokenModifiers_preserves (p : SMParser) (tok : Token) (p' : SMParser)
    (h : addTokenModifiers p tok = Except.ok p') :
    AddTokPreserves p p' tok := by
  unfold addTokenModifiers at h
  simp only [ite_prop_iff_or] at h
  split at h
  · simp only [Except.ok.injEq] at h
    subst h
    exact addTokPreserves_setPrev_id p tok
  · split at h
    · simp only [Except.ok.injEq] at h
      subst h
      exact addTokPreserves_setPrev_id p tok
    · split at h
      · simp only [Except.ok.injEq] at h
        subst h
        exact addTokPreserves_setPrev_id p tok
      · split at h
        · simp only [Except.ok.injEq] at h
          subst h
          exact addTokPreserves_setPrev_id p tok
        · split at h
          · simp only [Except.ok.injEq] at h
            subst h
            exact addTokPreserves_setPrev_id p tok
          · exact addTokenDefiner_preserves _ _ _ h

theorem addToken_semicolon_ends (p : SMParser) (tok nt : Token)
    (hend : p.statement.endStatement = none)
    (htok : tok.type = TokenType.semicolon) (hcond : semiCond p) :
    addToken p tok nt =
      Except.ok { p with statement := { p.statement with endStatement := some ";" } } := by
  unfold addToken
  rw [if_neg (by simp [hend]), if_pos ⟨htok, hcond⟩]

theorem addToken_cases (p : SMParser) (tok nt : Token) (p' : SMParser)
    (hend : p.statement.endStatement = none)
    (h : addToken p tok nt = Except.ok p') :
    (tok.type = TokenType.semicolon ∧ semiCond p ∧
      p' = { p with statement := { p.statement with endStatement := some ";" } })
    ∨ (AddTokPreserves p p' tok ∧ p'.statement.endStatement = none) := by
  unfold addToken at h
  rw [if_neg (by simp [hend])] at h
  split at h
  · rename_i hcond
    simp only [Except.ok.injEq] at h
    exact Or.inl ⟨hcond.1, hcond.2, h.symm⟩
  · right
    have hpres : AddTokPreserves p p' tok := by
      split at h
      · simp only [Except.ok.injEq] at h
        subst h
        refine addTokPreserves_comp ?_ (addTokPreserves_setPrev_id _ tok)
        split <;> exact ⟨rfl, Or.inl rfl, fun _ => rfl⟩
      · split at h
        · simp only [Except.ok.injEq] at h
          subst h
          exact addTokPreserves_setPrev_id p tok
        · split at h
          · rename_i p1 hbo
            simp only [Except.ok.injEq] at h
            subst h
            have hst : p1.statement = p.statement := by
              have := addTokenBlockOpen_statement p tok nt
              rw [hbo] at this
              exact this
            exact ⟨by rw [hst], Or.inl (by rw [hst]), fun _ => by rw [hst]⟩
          · rename_i p1 hbo
            have hst : p1.statement = p.statement := by
              have := addTokenBlockOpen_statement p tok nt
              rw [hbo] at this
              exact this
            have h1 : AddTokPreserves p p1 tok :=
              ⟨by rw [hst], Or.inl (by rw [hst]), fun _ => by rw [hst]⟩
            obtain ⟨te, ts, tp⟩ := addTokenTables_fields p1 tok nt
            have h2 : AddTokPreserves p1 (addTokenTables p1 tok nt) tok :=
              ⟨te, Or.inl ts, fun _ => tp⟩
            obtain ⟨pe, ps, pp⟩ := addTokenParams_fields (addTokenTables p1 tok nt) tok
            have h3 : AddTokPreserves (addTokenTables p1 tok nt)
                (addTokenParams (addTokenTables p1 tok nt) tok) tok :=
              ⟨pe, Or.inl ps, pp⟩
            exact addTokPreserves_comp h1 (addTokPreserves_comp h2
              (addTokPreserves_comp h3 (addTokenModifiers_preserves _ _ _ h)))
    exact ⟨hpres, hpres.1.trans hend⟩

/-- C1: feeding a semicolon token to an active statement parser ends the
statement exactly under `semiCond` — immediately unless the statement's
type is one of `statementsWithEnds` (`CREATE_TRIGGER`, `CREATE_FUNCTION`,
`CREATE_PROCEDURE`, `ANON_BLOCK`, `UNKNOWN`), and for those only when no
blocks are open and the type is `UNKNOWN` or `CanEnd` was set by the
closure of all opened blocks. Ending sets the end marker to `";"` and,
in the emitting loop, the statement's end to the semicolon's end offset;
otherwise the end marker stays unset. -/
theorem c1_semicolon_termination (p : SMParser) (tok nextTok : Token)
    (hend : p.statement.endStatement = none)
    (htok : tok.type = TokenType.semicolon) :
    (semiCond p →
      runActiveParser p tok nextTok = Except.ok (Sum.inr (Statement.toConcrete
        { p.statement with endStatement := some ";", endPos := tok.endPos }))) ∧
    (¬semiCond p → ∀ p', addToken p tok nextTok = Except.ok p' →
      p'.statement.endStatement = none) := by
  constructor
  · intro hc
    unfold runActiveParser
    rw [addToken_semicolon_ends p tok nextTok hend htok hc]
    rfl
  · intro hc p' h
    rcases addToken_cases p tok nextTok p' hend h with ⟨_, hsc, _⟩ | ⟨_, he⟩
    · exact absurd hsc hc
    · exact he

/-- C1 (witness): a fresh `SELECT` parser (type not yet set, so the
statement does not require block closure) ends on a concrete semicolon
token. -/
theorem c1_semicolon_termination_witness :
    runActiveParser
        (createSelectStatementParser
          ⟨true, "generic", false, defaultParamTypesFor "generic"⟩)
        { type := TokenType.semicolon, value := ";", start := 6, endPos := 6 }
        { type := TokenType.unknown, value := "", start := 7, endPos := 7 }
      = Except.ok (Sum.inr (Statement.toConcrete
        { (createSelectStatementParser
            ⟨true, "generic", false, defaultParamTypesFor "generic"⟩).statement with
          endStatement := some ";", endPos := 6 })) :=
  (c1_semicolon_termination
    (createSelectStatementParser ⟨true, "generic", false, defaultParamTypesFor "generic"⟩)
    { type := TokenType.semicolon, value := ";", start := 6, endPos := 6 }
    { type := TokenType.unknown, value := "", start := 7, endPos := 7 }
    rfl rfl).1 (Or.inl rfl)

/-! ### Double-colon lemmas -/

theorem isParameterGo_colon_adjacent (s : State) (pt : ParamTypes)
    (hadj : peekBack s = some ':' ∨ peek s = some ':') :
    isParameterGo (some ':') s pt = false := by
  simp only [isParameterGo]
  rw [if_pos ⟨trivial, hadj⟩]

theorem isStringC_colon (d : String) : isStringC ':' d = false := by
  unfold isStringC
  split <;> decide

theorem scanIndividualCharacter_type (s : State) (t : Token)
    (h : scanIndividualCharacter s = some t) : t.type = TokenType.semicolon := by
  simp only [scanIndividualCharacter, resolveIndividualTokenType] at h
  split at h
  · exact absurd h (by simp)
  · rename_i ty heq
    simp only [Option.some.injEq] at h
    subst h
    show ty = TokenType.semicolon
    split at heq
    · simp only [Option.some.injEq] at heq
      exact heq.symm
    · exact absurd heq (by simp)

/-- `ScanToken` at a `:` rune whose neighbour is also `:`: every dispatch
branch other than `scanParameter` yields a non-parameter token, and the
`isParameter` guard is off by its `::` early return. -/
theorem scanToken_colon_adjacent (s0 s : State) (d : String) (pt : ParamTypes)
    (hread : read s0 0 = (s, some ':'))
    (hadj : peekBack s = some ':' ∨ peek s = some ':') :
    (scanToken s0 d pt).2.type ≠ TokenType.parameter := by
  have hci : isCommentInlineGo (some ':') s = (false, s) := rfl
  have hcb : isCommentBlockGo (some ':') s = (false, s) := rfl
  have hws : isWhitespaceC ':' = false := rfl
  simp only [scanToken, hread, hci, hcb, hws, isStringC_colon,
    isParameterGo_colon_adjacent s pt hadj, Bool.false_and, Bool.false_eq_true,
    if_false, ite_false]
  split
  · simp [mkTokenLen]
  · split
    · simp [mkTokenLen]
    · split
      · split
        · simp [mkTokenLen]
        · simp [mkTokenLen]
      · split
        · rename_i t heq
          rw [scanIndividualCharacter_type _ _ heq]
          decide
        · simp [skipChar]

/-- `AddToken` only ever appends to `Parameters` inside its
`token.Type == TokenParameter` branch. -/
theorem addToken_params_nonparam (p : SMParser) (tok nt : Token) (p' : SMParser)
    (hty : tok.type ≠ TokenType.parameter)
    (h : addToken p tok nt = Except.ok p') :
    p'.statement.parameters = p.statement.parameters := by
  have hend : p.statement.endStatement = none := by
    by_cases hs : p.statement.endStatement = none
    · exact hs
    · exfalso
      have hsome : p.statement.endStatement.isSome = true :=
        Option.isSome_iff_ne_none.mpr hs
      unfold addToken at h
      rw [if_pos hsome] at h
      exact Except.noConfusion h
  rcases addToken_cases p tok nt p' hend h with ⟨_, _, hp⟩ | ⟨hpres, _⟩
  · subst hp
    rfl
  · exact hpres.2.2 hty

/-- C10: a `:` rune whose immediately preceding or following rune is also
`:` is never lexed as a parameter token — whatever parameter configuration
is in force, `ScanToken` there returns a token of some other type — and a
non-parameter token never changes a statement's captured parameter list in
`AddToken`; hence a `::` cast contributes no parameter entry. -/
theorem c10_double_colon :
    (∀ (s0 s : State) (d : String) (pt : ParamTypes),
        read s0 0 = (s, some ':') →
        (peekBack s = some ':' ∨ peek s = some ':') →
        (scanToken s0 d pt).2.type ≠ TokenType.parameter) ∧
    (∀ (p : SMParser) (tok nt : Token) (p' : SMParser),
        tok.type ≠ TokenType.parameter →
        addToken p tok nt = Except.ok p' →
        p'.statement.parameters = p.statement.parameters) :=
  ⟨fun s0 s d pt hread hadj => scanToken_colon_adjacent s0 s d pt hread hadj,
   fun p tok nt p' hty h => addToken_params_nonparam p tok nt p' hty h⟩

/-- C10 (witness): on input `::1` with `:` configured as a numbered, named
and quoted prefix, the first `:` is not lexed as a parameter; and a
concrete non-parameter `::` token fed to a fresh `SELECT` parser leaves
the parameter list unchanged. -/
theorem c10_double_colon_witness :
    (scanToken { start := 0, endPos := 2, position := -1, input := [':', ':', '1'] }
        "psql"
        { positional := some true, numbered := [':'], named := [':'],
          quoted := [':'] }).2.type ≠ TokenType.parameter ∧
    ((addToken
        (createSelectStatementParser ⟨false, "psql", false, defaultParamTypesFor "psql"⟩)
        { type := TokenType.unknown, value := "::", start := 9, endPos := 10 }
        { type := TokenType.unknown, value := "x", start := 11, endPos := 11 }).toOption.getD
      (createSelectStatementParser
        ⟨false, "psql", false, defaultParamTypesFor "psql"⟩)).statement.parameters =
    (createSelectStatementParser
      ⟨false, "psql", false, defaultParamTypesFor "psql"⟩).statement.parameters :=
  ⟨c10_double_colon.1
      { start := 0, endPos := 2, position := -1, input := [':', ':', '1'] }
      { start := 0, endPos := 2, position := 0, input := [':', ':', '1'] }
      "psql"
      { positional := some true, numbered := [':'], named := [':'], quoted := [':'] }
      rfl (Or.inr rfl),
   c10_double_colon.2
      (createSelectStatementParser ⟨false, "psql", false, defaultParamTypesFor "psql"⟩)
      { type := TokenType.unknown, value := "::", start := 9, endPos := 10 }
      { type := TokenType.unknown, value := "x", start := 11, endPos := 11 }
      ((addToken
          (createSelectStatementParser ⟨false, "psql", false, defaultParamTypesFor "psql"⟩)
          { type := TokenType.unknown, value := "::", start := 9, endPos := 10 }
          { type := TokenType.unknown, value := "x", start := 11, endPos := 11 }).toOption.getD
        (createSelectStatementParser ⟨false, "psql", false, defaultParamTypesFor "psql"⟩))
      (by decide) (by rfl)⟩

/-! ### Token-stream span lemmas -/

theorem read_fst_inv (base : Int) (input : List Char) (s : State) (k : Int)
    (h : ScanInv base input s) (hk : -1 ≤ k) : ScanInv base input (read s k).1 := by
  obtain ⟨hi, hs, h1, h2⟩ := h
  unfold read
  split
  · exact ⟨hi, hs, h1, h2⟩
  · rename_i hc
    rw [hi] at hc
    exact ⟨hi, hs, by dsimp; omega, by dsimp; omega⟩

theorem unread_inv (base : Int) (input : List Char) (s : State)
    (h : ScanInv base input s) : ScanInv base input (unread s) := by
  obtain ⟨hi, hs, h1, h2⟩ := h
  unfold unread
  split
  · exact ⟨hi, hs, h1, h2⟩
  · rename_i hc
    rw [hs] at hc
    exact ⟨hi, hs, by dsimp; omega, by dsimp; omega⟩

theorem scanWhitespaceLoop_inv (base : Int) (input : List Char) :
    ∀ (f : Nat) (s : State), ScanInv base input s →
      ScanInv base input (scanWhitespaceLoop f s)
  | 0, s, h => h
  | f + 1, s, h => by
    unfold scanWhitespaceLoop
    have hr := read_fst_inv base input s 0 h (by omega)
    split
    · rename_i s' heq
      rw [show s' = (read s 0).1 from by rw [heq]]
      exact hr
    · rename_i s' c heq
      have hs' : s' = (read s 0).1 := by rw [heq]
      split
      · exact scanWhitespaceLoop_inv base input f s' (hs' ▸ hr)
      · exact unread_inv base input s' (hs' ▸ hr)

theorem scanCommentInlineLoop_inv (base : Int) (input : List Char) :
    ∀ (f : Nat) (s : State), ScanInv base input s →
      ScanInv base input (scanCommentInlineLoop f s)
  | 0, _, h => h
  | f + 1, s, h => by
    unfold scanCommentInlineLoop
    have hr := read_fst_inv base input s 0 h (by omega)
    split
    · rename_i s' heq
      rw [show s' = (read s 0).1 from by rw [heq]]
      exact hr
    · rename_i s' c heq
      have hs' : s' = (read s 0).1 := by rw [heq]
      split
      · exact hs' ▸ hr
      · exact scanCommentInlineLoop_inv base input f s' (hs' ▸ hr)

theorem scanCommentBlockLoop_inv (base : Int) (input : List Char) :
    ∀ (f : Nat) (prev : Option Char) (s : State), ScanInv base input s →
      ScanInv base input (scanCommentBlockLoop f prev s)
  | 0, _, _, h => h
  | f + 1, prev, s, h => by
    unfold scanCommentBlockLoop
    have hr := read_fst_inv base input s 0 h (by omega)
    split
    · rename_i s' heq
      rw [show s' = (read s 0).1 from by rw [heq]]
      exact hr
    · rename_i s' c heq
      have hs' : s' = (read s 0).1 := by rw [heq]
      split
      · exact hs' ▸ hr
      · exact scanCommentBlockLoop_inv base input f (some c) s' (hs' ▸ hr)

theorem scanStringLoop_inv (base : Int) (input : List Char) :
    ∀ (f : Nat) (endTok : Char) (s : State), ScanInv base input s →
      ScanInv base input (scanStringLoop f endTok s)
  | 0, _, _, h => h
  | f + 1, endTok, s, h => by
    unfold scanStringLoop
    have hr := read_fst_inv base input s 0 h (by omega)
    split
    · rename_i s' heq
      exact unread_inv base input s' ((show s' = (read s 0).1 from by rw [heq]) ▸ hr)
    · rename_i s' c heq
      have hs' : s' = (read s 0).1 := by rw [heq]
      split
      · split
        · exact scanStringLoop_inv base input f endTok (read s' 0).1
            (read_fst_inv base input s' 0 (hs' ▸ hr) (by omega))
        · exact hs' ▸ hr
      · exact scanStringLoop_inv base input f endTok s' (hs' ▸ hr)

theorem scanQuotedIdentifierLoop_inv (base : Int) (input : List Char) :
    ∀ (f : Nat) (endTok : Char) (s : State), ScanInv base input s →
      ScanInv base input (scanQuotedIdentifierLoop f endTok s)
  | 0, _, _, h => h
  | f + 1, endTok, s, h => by
    unfold scanQuotedIdentifierLoop
    have hr := read_fst_inv base input s 0 h (by omega)
    split
    · rename_i s' heq
      exact unread_inv base input s' ((show s' = (read s 0).1 from by rw [heq]) ▸ hr)
    · rename_i s' c heq
      have hs' : s' = (read s 0).1 := by rw [heq]
      split
      · exact hs' ▸ hr
      · exact scanQuotedIdentifierLoop_inv base input f endTok s' (hs' ▸ hr)

theorem scanWordLoop_inv (base : Int) (input : List Char) :
    ∀ (f : Nat) (s : State), ScanInv base input s →
      ScanInv base input (scanWordLoop f s)
  | 0, _, h => h
  | f + 1, s, h => by
    unfold scanWordLoop
    have hr := read_fst_inv base input s 0 h (by omega)
    split
    · rename_i s' heq
      rw [show s' = (read s 0).1 from by rw [heq]]
      exact hr
    · rename_i s' c heq
      have hs' : s' = (read s 0).1 := by rw [heq]
      split
      · exact scanWordLoop_inv base input f s' (hs' ▸ hr)
      · exact unread_inv base input s' (hs' ▸ hr)

theorem scanNamedLoop_inv (base : Int) (input : List Char) :
    ∀ (f : Nat) (s : State), ScanInv base input s →
      ScanInv base input (scanNamedLoop f s)
  | 0, _, h => h
  | f + 1, s, h => by
    unfold scanNamedLoop
    split
    · exact scanNamedLoop_inv base input f (read s 0).1
        (read_fst_inv base input s 0 h (by omega))
    · exact h

theorem scanQuotedParamLoop_inv (base : Int) (input : List Char) :
    ∀ (f : Nat) (endQuote : Char) (s : State), ScanInv base input s →
      ScanInv base input (scanQuotedParamLoop f endQuote s)
  | 0, _, _, h => h
  | f + 1, endQuote, s, h => by
    unfold scanQuotedParamLoop
    split
    · exact scanQuotedParamLoop_inv base input f endQuote (read s 0).1
        (read_fst_inv base input s 0 h (by omega))
    · exact h

theorem scanDollarLoop_inv (base : Int) (input : List Char) :
    ∀ (f : Nat) (label : List Char) (s : State), ScanInv base input s →
      ScanInv base input (scanDollarLoop f label s)
  | 0, _, _, h => h
  | f + 1, label, s, h => by
    obtain ⟨hi, hs, h1, h2⟩ := h
    have hlen : (s.input.length : Int) = (input.length : Int) := by rw [hi]
    unfold scanDollarLoop
    split
    · split
      · exact ⟨hi, hs, by dsimp; omega, by dsimp; omega⟩
      · exact ⟨hi, hs, h1, h2⟩
    · rename_i hguard
      split
      · refine ⟨hi, hs, by dsimp; omega, by dsimp; omega⟩
      · split
        · rename_i s' heq
          rw [show s' = (read s 0).1 from by rw [heq]]
          exact read_fst_inv base input s 0 ⟨hi, hs, h1, h2⟩ (by omega)
        · rename_i s' c heq
          exact scanDollarLoop_inv base input f label s'
            ((show s' = (read s 0).1 from by rw [heq]) ▸
              read_fst_inv base input s 0 ⟨hi, hs, h1, h2⟩ (by omega))
theorem goLen_nil : goLen (String.mk []) = 0 := rfl

theorem goLen_cons (c : Char) (cs : List Char) :
    goLen (String.mk (c :: cs)) = (c.utf8Size : Int) + goLen (String.mk cs) := by
  simp [goLen, String.utf8ByteSize]
  omega
theorem goLen_ascii (input : List Char) (hascii : ∀ c ∈ input, c.utf8Size = 1) :
    ∀ cs : List Char, (∀ c ∈ cs, c ∈ input) → goLen (String.mk cs) = (cs.length : Int)
  | [], _ => rfl
  | c :: cs, hsub => by
    rw [goLen_cons, goLen_ascii input hascii cs (fun x hx => hsub x (List.mem_cons_of_mem c hx)),
      hascii c (hsub c (List.mem_cons_self c cs))]
    simp
    omega

theorem goLen_pos (cs : List Char) (hne : cs ≠ []) : 1 ≤ goLen (String.mk cs) := by
  match cs with
  | [] => exact absurd rfl hne
  | c :: cs =>
    rw [goLen_cons]
    have h1 : 1 ≤ c.utf8Size := by
      have := Char.utf8Size_pos c
      omega
    have h2 : 0 ≤ goLen (String.mk cs) := by
      clear hne h1
      induction cs with
      | nil => exact le_of_eq goLen_nil.symm
      | cons d ds ih =>
        rw [goLen_cons]
        have := Char.utf8Size_pos d
        omega
    omega

theorem goSlice_subset (l : List Char) (a b : Int) :
    ∀ c ∈ goSlice l a b, c ∈ l := by
  intro c hc
  unfold goSlice at hc
  exact List.mem_of_mem_take (List.mem_of_mem_drop hc)

theorem goSlice_length (l : List Char) (a b : Int)
    (h0 : 0 ≤ a) (hab : a ≤ b) (hb : b ≤ (l.length : Int)) :
    ((goSlice l a b).length : Int) = b - a := by
  unfold goSlice
  rw [List.length_drop, List.length_take]
  omega
theorem sliceLen_eq (base : Int) (input : List Char) (s : State)
    (h : ScanInv base input s) (hb : 0 ≤ base)
    (hascii : ∀ c ∈ input, c.utf8Size = 1) :
    s.start + goLen (String.mk (goSlice s.input s.start (s.position + 1))) - 1
      = s.position := by
  obtain ⟨hi, hs, h1, h2⟩ := h
  rw [hi, hs]
  rw [goLen_ascii input hascii _ (goSlice_subset input base (s.position + 1)),
    goSlice_length input base (s.position + 1) hb (by omega) (by omega)]
  omega

theorem mkTokenLen_spec (ty : TokenType) (base : Int) (input : List Char) (s : State)
    (h : ScanInv base input s) (hb : 0 ≤ base)
    (hascii : ∀ c ∈ input, c.utf8Size = 1) :
    (mkTokenLen ty s).start = base ∧ (mkTokenLen ty s).endPos = s.position := by
  refine ⟨h.2.1, ?_⟩
  show s.start + goLen (String.mk (goSlice s.input s.start (s.position + 1))) - 1
      = s.position
  exact sliceLen_eq base input s h hb hascii

theorem dollarLabelAux_len : ∀ (rest acc label : List Char),
    dollarLabelAux rest acc = some label →
    acc.length + 1 ≤ label.length ∧ label.length ≤ acc.length + rest.length
  | [], acc, label, h => by simp [dollarLabelAux] at h
  | c :: rest, acc, label, h => by
    unfold dollarLabelAux at h
    split at h
    · simp only [Option.some.injEq] at h
      subst h
      simp
    · split at h
      · have := dollarLabelAux_len rest (acc ++ [c]) label h
        simp at this ⊢
        omega
      · exact absurd h (by simp)

theorem dollarLabel_len (l label : List Char) (h : dollarLabel l = some label) :
    2 ≤ label.length ∧ label.length ≤ l.length := by
  match l with
  | [] => simp [dollarLabel] at h
  | c :: rest =>
    simp only [dollarLabel] at h
    split at h
    · have := dollarLabelAux_len rest [c] label h
      simp at this ⊢
      omega
    · exact absurd h (by simp)

theorem scanDollarQuotedString_inv (base : Int) (input : List Char) (s : State)
    (h : ScanInv base input s) (hb : 0 ≤ base) (hpos : s.position = s.start) :
    ScanInv base input (scanDollarQuotedString s) := by
  obtain ⟨hi, hs, h1, h2⟩ := h
  have hlen : (s.input.length : Int) = (input.length : Int) := by rw [hi]
  unfold scanDollarQuotedString
  split
  · exact ⟨hi, hs, h1, h2⟩
  · rename_i label heq
    apply scanDollarLoop_inv
    have hlab := dollarLabel_len _ _ heq
    have hslen : ((goSlice s.input s.start (s.input.length : Int)).length : Int)
        = (s.input.length : Int) - s.start := by
      apply goSlice_length <;> omega
    refine ⟨hi, hs, ?_, ?_⟩ <;> dsimp <;> omega
theorem spS1_inv (base : Int) (input : List Char) (s0 : State) (pt : ParamTypes)
    (h : ScanInv base input s0) (hb : 0 ≤ base) (hpos : s0.position = s0.start) :
    ScanInv base input (spS1 s0 pt) := by
  obtain ⟨hi, hs, h1, h2⟩ := h
  have hil : s0.input.length = input.length := by rw [hi]
  unfold spS1
  split
  · have hlt : (spNumberedStr s0).length ≤ s0.input.length - (s0.start + 1).toNat := by
      unfold spNumberedStr
      calc ((s0.input.drop (s0.start + 1).toNat).takeWhile fun r => isLetterC r || isDigitC r).length
          ≤ (s0.input.drop (s0.start + 1).toNat).length := (List.takeWhile_sublist _).length_le
        _ = s0.input.length - (s0.start + 1).toNat := List.length_drop _ _
    refine ⟨hi, hs, ?_, ?_⟩ <;> dsimp <;> omega
  · exact ⟨hi, hs, h1, h2⟩

theorem spS2_inv (base : Int) (input : List Char) (s0 : State) (d : String)
    (pt : ParamTypes)
    (h : ScanInv base input s0) (hb : 0 ≤ base) (hpos : s0.position = s0.start) :
    ScanInv base input (spS2 s0 d pt) := by
  have h1 := spS1_inv base input s0 pt h hb hpos
  unfold spS2
  split
  · exact scanNamedLoop_inv base input _ _ h1
  · exact h1

theorem spS3_inv (base : Int) (input : List Char) (s0 : State) (d : String)
    (pt : ParamTypes)
    (h : ScanInv base input s0) (hb : 0 ≤ base) (hpos : s0.position = s0.start) :
    ScanInv base input (spS3 s0 d pt) := by
  have h2 := spS2_inv base input s0 d pt h hb hpos
  unfold spS3
  split
  · split
    · rename_i s' heq
      rw [show s' = (read (spS2 s0 d pt) 0).1 from by rw [heq]]
      exact read_fst_inv base input _ 0 h2 (by omega)
    · rename_i s' qc heq
      have hs' : s' = (read (spS2 s0 d pt) 0).1 := by rw [heq]
      exact read_fst_inv base input _ 0
        (scanQuotedParamLoop_inv base input _ _ s' (hs' ▸ read_fst_inv base input _ 0 h2 (by omega)))
        (by omega)
  · exact h2

theorem spS4_inv (base : Int) (input : List Char) (s0 : State) (d : String)
    (pt : ParamTypes)
    (h : ScanInv base input s0) (hb : 0 ≤ base) (hpos : s0.position = s0.start) :
    ScanInv base input (spS4 s0 d pt) := by
  have h3 := spS3_inv base input s0 d pt h hb hpos
  unfold spS4
  split
  · rename_i hhit
    have hne : spCustomStr s0 d pt ≠ [] := by
      unfold spCustomHit at hhit
      simp only [Bool.and_eq_true, Bool.not_eq_true'] at hhit
      intro hnil
      rw [hnil] at hhit
      simp at hhit
    have hg := goLen_pos _ hne
    exact read_fst_inv base input _ _ h3 (by omega)
  · exact h3

theorem scanParameter_spec (base : Int) (input : List Char) (s0 : State)
    (d : String) (pt : ParamTypes)
    (h : ScanInv base input s0) (hb : 0 ≤ base) (hpos : s0.position = s0.start)
    (hascii : ∀ c ∈ input, c.utf8Size = 1) :
    ScanInv base input (scanParameter s0 d pt).1 ∧
    (scanParameter s0 d pt).2.start = base ∧
    (scanParameter s0 d pt).2.endPos = (scanParameter s0 d pt).1.position := by
  have h4 : ScanInv base input (spS4 s0 d pt) := spS4_inv base input s0 d pt h hb hpos
  unfold scanParameter
  split <;>
    exact ⟨h4, (mkTokenLen_spec _ base input _ h4 hb hascii).1,
      (mkTokenLen_spec _ base input _ h4 hb hascii).2⟩
theorem isCommentInlineGo_spec (base : Int) (input : List Char) (ch : Option Char)
    (s : State) (h : ScanInv base input s) (hpos : s.position = s.start) :
    ∀ b s1, isCommentInlineGo ch s = (b, s1) →
      ScanInv base input s1 ∧
        (b = false → s1.position = s.position ∧ s1.start = s.start) := by
  intro b s1 hb
  unfold isCommentInlineGo at hb
  split at hb
  · simp only [Prod.mk.injEq] at hb
    rw [← hb.2]
    exact ⟨h, fun _ => ⟨rfl, rfl⟩⟩
  · rcases hrd : read s 0 with ⟨sr, c⟩
    rw [hrd] at hb
    dsimp at hb
    have hsr : sr = (read s 0).1 := by rw [hrd]
    have hrinv : ScanInv base input sr := hsr ▸ read_fst_inv base input s 0 h (by omega)
    have hun : (unread sr).position = s.position ∧ (unread sr).start = s.start := by
      unfold read at hrd
      split at hrd
      · simp only [Prod.mk.injEq] at hrd
        rw [← hrd.1]
        unfold unread
        rw [if_pos (by omega)]
        exact ⟨hpos.symm ▸ rfl, rfl⟩
      · simp only [Prod.mk.injEq] at hrd
        rw [← hrd.1]
        unfold unread
        rw [if_neg (by dsimp; omega)]
        exact ⟨by dsimp; omega, rfl⟩
    split at hb
    · simp only [Prod.mk.injEq] at hb
      rw [← hb.2]
      exact ⟨hrinv, fun hf => absurd (hb.1.trans hf) (by simp)⟩
    · simp only [Prod.mk.injEq] at hb
      rw [← hb.2]
      exact ⟨unread_inv base input sr hrinv, fun _ => hun⟩

theorem isCommentBlockGo_spec (base : Int) (input : List Char) (ch : Option Char)
    (s : State) (h : ScanInv base input s) (hpos : s.position = s.start) :
    ∀ b s1, isCommentBlockGo ch s = (b, s1) →
      ScanInv base input s1 ∧
        (b = false → s1.position = s.position ∧ s1.start = s.start) := by
  intro b s1 hb
  unfold isCommentBlockGo at hb
  split at hb
  · simp only [Prod.mk.injEq] at hb
    rw [← hb.2]
    exact ⟨h, fun _ => ⟨rfl, rfl⟩⟩
  · rcases hrd : read s 0 with ⟨sr, c⟩
    rw [hrd] at hb
    dsimp at hb
    have hsr : sr = (read s 0).1 := by rw [hrd]
    have hrinv : ScanInv base input sr := hsr ▸ read_fst_inv base input s 0 h (by omega)
    have hun : (unread sr).position = s.position ∧ (unread sr).start = s.start := by
      unfold read at hrd
      split at hrd
      · simp only [Prod.mk.injEq] at hrd
        rw [← hrd.1]
        unfold unread
        rw [if_pos (by omega)]
        exact ⟨hpos.symm ▸ rfl, rfl⟩
      · simp only [Prod.mk.injEq] at hrd
        rw [← hrd.1]
        unfold unread
        rw [if_neg (by dsimp; omega)]
        exact ⟨by dsimp; omega, rfl⟩
    split at hb
    · simp only [Prod.mk.injEq] at hb
      rw [← hb.2]
      exact ⟨hrinv, fun hf => absurd (hb.1.trans hf) (by simp)⟩
    · simp only [Prod.mk.injEq] at hb
      rw [← hb.2]
      exact ⟨unread_inv base input sr hrinv, fun _ => hun⟩
theorem scanIndividualCharacter_fields (s : State) (t : Token)
    (h : scanIndividualCharacter s = some t) :
    t.start = s.start ∧
      t.endPos = s.start + goLen (String.mk (goSlice s.input s.start (s.position + 1))) - 1 := by
  simp only [scanIndividualCharacter, resolveIndividualTokenType] at h
  split at h
  · exact absurd h (by simp)
  · simp only [Option.some.injEq] at h
    rw [← h]
    exact ⟨rfl, rfl⟩

theorem scanToken_spec (input : List Char) (d : String) (pt : ParamTypes)
    (p : Int) (s' : State) (tok : Token)
    (hp : -1 ≤ p) (hlt : p < (input.length : Int) - 1)
    (hascii : ∀ c ∈ input, c.utf8Size = 1)
    (h : scanToken { start := p + 1, endPos := (input.length : Int) - 1,
                     position := p, input := input } d pt = (s', tok)) :
    ScanInv (p + 1) input s' ∧ tok.start = p + 1 ∧ tok.endPos = s'.position := by
  have hb : (0 : Int) ≤ p + 1 := by omega
  have hread : read
      { start := p + 1, endPos := (input.length : Int) - 1,
        position := p, input := input } 0
      = ({ start := p + 1, endPos := (input.length : Int) - 1,
           position := p + 1, input := input }, some (charAt input (p + 1))) := by
    unfold read
    rw [if_neg (by dsimp; omega)]
    simp
  have hS : ScanInv (p + 1) input
      { start := p + 1, endPos := (input.length : Int) - 1,
        position := p + 1, input := input } :=
    ⟨rfl, rfl, by dsimp; omega, by dsimp; omega⟩
  have hfin : ∀ (ty : TokenType) (st : State), ScanInv (p + 1) input st →
      (mkTokenLen ty st).start = p + 1 ∧ (mkTokenLen ty st).endPos = st.position :=
    fun ty st hst => mkTokenLen_spec ty (p + 1) input st hst hb hascii
  have hall : ∀ (ty : TokenType) (st : State), ScanInv (p + 1) input st →
      ScanInv (p + 1) input st ∧ (mkTokenLen ty st).start = p + 1 ∧
        (mkTokenLen ty st).endPos = st.position :=
    fun ty st hst => ⟨hst, (hfin ty st hst).1, (hfin ty st hst).2⟩
  unfold scanToken at h
  rw [hread] at h
  dsimp only at h
  split at h
  · simp only [Prod.mk.injEq] at h
    obtain ⟨h1, h2⟩ := h
    subst h1
    subst h2
    exact hall _ _ (scanWhitespaceLoop_inv (p + 1) input _ _ hS)
  · split at h
    · rename_i s1 heq
      have hc := (isCommentInlineGo_spec (p + 1) input _ _ hS rfl true s1 heq).1
      simp only [Prod.mk.injEq] at h
      obtain ⟨h1, h2⟩ := h
      subst h1
      subst h2
      exact hall _ _ (scanCommentInlineLoop_inv (p + 1) input _ _ hc)
    · rename_i s1 heq
      obtain ⟨hc1, hcp⟩ := isCommentInlineGo_spec (p + 1) input _ _ hS rfl false s1 heq
      obtain ⟨hp1, hst1⟩ := hcp rfl
      split at h
      · rename_i s2 heq2
        have hc2 := (isCommentBlockGo_spec (p + 1) input _ s1 hc1 (by rw [hp1, hst1]) true s2 heq2).1
        simp only [Prod.mk.injEq] at h
        obtain ⟨h1, h2⟩ := h
        subst h1
        subst h2
        exact hall _ _ (scanCommentBlockLoop_inv (p + 1) input _ none _ hc2)
      · rename_i s2 heq2
        obtain ⟨hc2, hcp2⟩ :=
          isCommentBlockGo_spec (p + 1) input _ s1 hc1 (by rw [hp1, hst1]) false s2 heq2
        obtain ⟨hp2, hst2⟩ := hcp2 rfl
        have hpos2 : s2.position = s2.start := by rw [hp2, hp1, hst2, hst1]
        split at h
        · simp only [Prod.mk.injEq] at h
          obtain ⟨h1, h2⟩ := h
          subst h1
          subst h2
          exact hall _ _ (scanStringLoop_inv (p + 1) input _ _ _ hc2)
        · split at h
          · have hsp := scanParameter_spec (p + 1) input s2 d pt hc2 hb hpos2 hascii
            rw [h] at hsp
            exact ⟨hsp.1, hsp.2.1, hsp.2.2⟩
          · split at h
            · simp only [Prod.mk.injEq] at h
              obtain ⟨h1, h2⟩ := h
              subst h1
              subst h2
              exact hall _ _ (scanDollarQuotedString_inv (p + 1) input s2 hc2 hb hpos2)
            · split at h
              · simp only [Prod.mk.injEq] at h
                obtain ⟨h1, h2⟩ := h
                subst h1
                subst h2
                exact hall _ _ (scanQuotedIdentifierLoop_inv (p + 1) input _ _ _ hc2)
              · split at h
                · split at h
                  · simp only [Prod.mk.injEq] at h
                    obtain ⟨h1, h2⟩ := h
                    subst h1
                    subst h2
                    refine ⟨scanWordLoop_inv (p + 1) input _ s2 hc2, ?_, ?_⟩
                    · exact (scanWordLoop_inv (p + 1) input _ s2 hc2).2.1
                    · exact sliceLen_eq (p + 1) input _
                        (scanWordLoop_inv (p + 1) input _ s2 hc2) hb hascii
                  · simp only [Prod.mk.injEq] at h
                    obtain ⟨h1, h2⟩ := h
                    subst h1
                    subst h2
                    exact hall _ _ (scanWordLoop_inv (p + 1) input _ s2 hc2)
                · split at h
                  · rename_i t heq3
                    simp only [Prod.mk.injEq] at h
                    obtain ⟨h1, h2⟩ := h
                    subst h1
                    subst h2
                    obtain ⟨hf1, hf2⟩ := scanIndividualCharacter_fields s2 t heq3
                    refine ⟨hc2, ?_, ?_⟩
                    · rw [hf1, hc2.2.1]
                    · rw [hf2]
                      exact sliceLen_eq (p + 1) input s2 hc2 hb hascii
                  · simp only [Prod.mk.injEq] at h
                    obtain ⟨h1, h2⟩ := h
                    subst h1
                    subst h2
                    refine ⟨hc2, hc2.2.1, hpos2.symm⟩
theorem coversB_append : ∀ (ts : List Token) (a : Int) (t : Token),
    coversB ts a t.start = true → t.start ≤ t.endPos →
    coversB (ts ++ [t]) a (t.endPos + 1) = true
  | [], a, t, h, hle => by
    simp only [coversB, List.nil_append] at h ⊢
    simp only [beq_iff_eq] at h
    subst h
    simp only [beq_self_eq_true, Bool.true_and, Bool.and_eq_true, decide_eq_true_eq]
    exact ⟨hle, by simp [coversB]⟩
  | u :: ts, a, t, h, hle => by
    simp only [coversB, List.cons_append, Bool.and_eq_true] at h ⊢
    exact ⟨h.1, coversB_append ts _ t h.2 hle⟩

theorem parseStepOutside_tokens (opts : ParseOptions) (ls : LoopSt)
    (token nextToken : Token) (startPos newPrev : Int) (ls' : LoopSt)
    (h : parseStepOutside opts ls token nextToken startPos newPrev = Except.ok ls') :
    (ls'.tokens = ls.tokens ++ [token] ∧ ls'.prevPos = newPrev) ∨
    (ls'.tokens = ls.tokens ∧ ls'.prevPos = ls.prevPos) := by
  unfold parseStepOutside at h
  split at h
  · simp only [Except.ok.injEq] at h
    subst h
    exact Or.inl ⟨rfl, rfl⟩
  · split at h
    · simp only [Except.ok.injEq] at h
      subst h
      exact Or.inl ⟨rfl, rfl⟩
    · split at h
      · simp only [Except.ok.injEq] at h
        subst h
        exact Or.inl ⟨rfl, rfl⟩
      · split at h
        · simp only [Except.ok.injEq] at h
          subst h
          exact Or.inl ⟨rfl, rfl⟩
        · split at h
          · simp only [Except.ok.injEq] at h
            subst h
            exact Or.inl ⟨rfl, rfl⟩
          · split at h
            · simp only [Except.ok.injEq] at h
              subst h
              exact Or.inl ⟨rfl, rfl⟩
            · split at h
              · exact absurd h (by simp)
              · split at h
                · simp only [Except.ok.injEq] at h
                  subst h
                  exact Or.inr ⟨rfl, rfl⟩
                · simp only [Except.ok.injEq] at h
                  subst h
                  exact Or.inr ⟨rfl, rfl⟩

theorem parseStep_tokens (opts : ParseOptions) (input : List Char) (ls ls' : LoopSt)
    (hascii : ∀ c ∈ input, c.utf8Size = 1)
    (h0 : -1 ≤ ls.prevPos) (hlt : ls.prevPos < (input.length : Int) - 1)
    (hcov : coversB ls.tokens 0 (ls.prevPos + 1) = true)
    (h : parseStep opts input ls = Except.ok ls') :
    -1 ≤ ls'.prevPos ∧ ls'.prevPos ≤ (input.length : Int) - 1 ∧
      coversB ls'.tokens 0 (ls'.prevPos + 1) = true := by
  unfold parseStep at h
  rcases hscan : scanToken
      { input := input, position := ls.prevPos, start := ls.prevPos + 1,
        endPos := (input.length : Int) - 1 } opts.dialect opts.paramTypes
    with ⟨tokState, token⟩
  rw [hscan] at h
  dsimp only at h
  obtain ⟨hinv, htokstart, htokend⟩ :=
    scanToken_spec input opts.dialect opts.paramTypes ls.prevPos tokState token
      h0 hlt hascii hscan
  obtain ⟨hin, hst, hlo, hhi⟩ := hinv
  have happend : coversB (ls.tokens ++ [token]) 0 (tokState.position + 1) = true := by
    rw [← htokend]
    apply coversB_append
    · rw [htokstart]
      exact hcov
    · rw [htokstart, htokend]
      omega
  split at h
  · split at h
    · exact absurd h (by simp)
    · simp only [Except.ok.injEq] at h
      subst h
      exact ⟨by dsimp; omega, by dsimp; omega, happend⟩
    · simp only [Except.ok.injEq] at h
      subst h
      exact ⟨by dsimp; omega, by dsimp; omega, happend⟩
  · split at h
    · exact absurd h (by simp)
    · rename_i ls1 heq
      simp only [Except.ok.injEq] at h
      have hfix : ls'.tokens = ls1.tokens ∧ ls'.prevPos = ls1.prevPos := by
        rw [← h]
        split
        · exact ⟨rfl, rfl⟩
        · exact ⟨rfl, rfl⟩
      rcases parseStepOutside_tokens opts ls token _ (ls.prevPos + 1) tokState.position ls1 heq
        with ⟨ht, hpp⟩ | ⟨ht, hpp⟩
      · rw [hfix.1, hfix.2, ht, hpp]
        exact ⟨by omega, by omega, happend⟩
      · rw [hfix.1, hfix.2, ht, hpp]
        exact ⟨h0, by omega, hcov⟩

theorem parseLoopGo_tokens (opts : ParseOptions) (input : List Char)
    (hascii : ∀ c ∈ input, c.utf8Size = 1) :
    ∀ (f : Nat) (ls ls' : LoopSt),
      parseLoopGo opts input f ls = Except.ok ls' →
      -1 ≤ ls.prevPos → ls.prevPos ≤ (input.length : Int) - 1 →
      coversB ls.tokens 0 (ls.prevPos + 1) = true →
      coversB ls'.tokens 0 (ls'.prevPos + 1) = true ∧
        ¬ls'.prevPos < (input.length : Int) - 1 ∧
        ls'.prevPos ≤ (input.length : Int) - 1
  | 0, ls, ls', h, _, _, _ => by simp [parseLoopGo] at h
  | f + 1, ls, ls', h, h0, h1, hcov => by
    unfold parseLoopGo at h
    split at h
    · rename_i hguard
      rcases hps : parseStep opts input ls with e | ls1
      · rw [hps] at h
        exact absurd h (by simp)
      · rw [hps] at h
        dsimp only at h
        obtain ⟨ha, hb2, hc⟩ := parseStep_tokens opts input ls ls1 hascii h0 hguard hcov hps
        exact parseLoopGo_tokens opts input hascii f ls1 ls' h ha hb2 hc
    · rename_i hguard
      simp only [Except.ok.injEq] at h
      subst h
      exact ⟨hcov, hguard, h1⟩
theorem parse_token_partition (input : List Char) (isStrict : Bool) (d : String)
    (it : Bool) (pt : ParamTypes) (r : ParseResult)
    (hascii : ∀ c ∈ input, c.utf8Size = 1)
    (h : parse input isStrict d it pt = Except.ok r) :
    coversB r.tokens 0 (input.length : Int) = true := by
  unfold parse at h
  dsimp only at h
  split at h
  · exact absurd h (by simp)
  · rename_i ls heq
    obtain ⟨hcov, hge, hle⟩ :=
      parseLoopGo_tokens _ input hascii _ _ ls heq (by dsimp; omega)
        (by dsimp; omega) (by decide)
    simp only [Except.ok.injEq] at h
    have hb2 : ls.prevPos + 1 = (input.length : Int) := by omega
    rw [hb2] at hcov
    rw [← h]
    exact hcov
/-- C2 (amended): for inputs of single-byte (one UTF-8 byte) runes, the
token stream that `Parse` returns partitions the offset range
`[0, len)` exactly: the first token starts at 0, every token spans
`[Start, End]` with `Start ≤ End`, and each next token starts at the
previous token's `End + 1`, the last ending at `len - 1`. -/
theorem c2_token_partition :
    ∀ (input : List Char) (isStrict : Bool) (d : String) (it : Bool)
      (pt : ParamTypes) (r : ParseResult),
      (∀ c ∈ input, c.utf8Size = 1) →
      parse input isStrict d it pt = Except.ok r →
      coversB r.tokens 0 (input.length : Int) = true :=
  fun input isStrict d it pt r hascii h =>
    parse_token_partition input isStrict d it pt r hascii h

/-- C2 (witness): the amended partition theorem applied to the ASCII
input `SELECT 1;`. -/
theorem c2_token_partition_witness :
    coversB ((parse ("SELECT 1;".data) false "generic" false
        (defaultParamTypesFor "generic")).toOption.getD
          { type := "", start := 0, endPos := 0, body := [], tokens := [] }).tokens 0
      (("SELECT 1;".data.length : Nat) : Int) = true :=
  c2_token_partition ("SELECT 1;".data) false "generic" false
    (defaultParamTypesFor "generic")
    ((parse ("SELECT 1;".data) false "generic" false
        (defaultParamTypesFor "generic")).toOption.getD
      { type := "", start := 0, endPos := 0, body := [], tokens := [] })
    (by decide) (by rfl)

/-- C2 (counterexample to the original claim): body spans need not be
strictly increasing by start — a statement whose type-setting token never
arrives keeps `Start = -1`, so non-strict `UNIQUE;UNIQUE;` yields two
statements both starting at -1 — and for multi-byte input the byte-based
token `End` offsets do not partition the rune range: the single token of
an `'é'` literal spans `[0, 3]` in a 3-rune input. -/
theorem c2_counterexample :
    ((parse ("UNIQUE;UNIQUE;".data) false "generic" false
          (defaultParamTypesFor "generic")).map
        (fun r => r.body.map (fun st => (st.start, st.endPos))) =
      Except.ok [(-1, 6), (-1, 13)]) ∧
    ((parse [squote, 'é', squote] false "generic" false
          (defaultParamTypesFor "generic")).map
        (fun r => (coversB r.tokens 0 3, r.tokens.map (fun t => (t.start, t.endPos)))) =
      Except.ok (false, [(0, 3)])) :=
  ⟨rfl, rfl⟩

end SQI
